import Mathlib

/-!
# Notification store: message status projection, contact-method verification and test throttling

A shallow embedding of `notification/store.go`.  The relational store is a value of type `DB`
(three tables, each a list of rows in physical scan order); every prepared statement of the
store is a function on that value, and every exported method threads it explicitly.  Methods
that run inside a transaction return the untouched input tables when they fail (rollback) and the
updated tables when they commit.

Values the Go code obtains from its environment are explicit arguments here: the transaction
time `now()`, freshly generated UUIDs, the PRNG draw, and the UUID syntax check of the
`validate` package.

The id columns have type uuid, and a stored uuid value is held as its canonical text.  The
lookups `origAlertMessage` and `findManyMessageStatuses` compare an id column with texts the
caller supplied: there the argument `uuidValue` gives the value a text denotes (`none` when the
text is not a valid UUID), so that every text form of one uuid selects the same rows.  The
contact-method statements receive the id in its stored form.

The last part embeds the request check of `notification/slack/actions.go`, with Go `int64`
arithmetic as integers wrapped modulo 2^64.
-/

set_option autoImplicit false

namespace notification

/-! ## Time -/

/-- Timestamps of the store and intervals between them, counted in microseconds. -/
abbrev Time := Int

/-- One second of store time. -/
def second : Int := 1000000

/-- The Go zero `time.Time{}` (January 1, year 1, 00:00 UTC) on the store's time axis. -/
def zeroTime : Time := -62135596800 * second

/-- Source constant `minTimeBetweenTests = time.Minute`, a Go duration in nanoseconds. -/
def minTimeBetweenTests : Int := 60 * 1000000000

/-- The interval the store receives for a Go duration `d`: the statement argument is the text
`fmt.Sprintf("%f seconds", d.Seconds())` cast to an interval.  Go durations are nanoseconds and
`%f` keeps six decimals, so the interval is the duration truncated to microseconds. -/
def intervalOf (d : Int) : Int := d / 1000

/-- The literal `'15 minutes'::interval` of `setVerificationCode`. -/
def fifteenMinutes : Int := 15 * 60 * second

/-! ## Errors -/

/-- Errors returned by the store. -/
inductive Error
  /-- A permission check rejected the caller. -/
  | PermissionDenied
  /-- The value built by `validation.NewFieldError(field, reason)`. -/
  | FieldError (field reason : String)
  /-- The sentinel `sql.ErrNoRows`. -/
  | ErrNoRows
  /-- The value built by `fmt.Errorf` with the given rendered text. -/
  | Errorf (text : String)
  /-- The value built by `errors.Wrap(cause, msg)`. -/
  | Wrap (cause : Error) (msg : String)
  /-- A unique-constraint violation reported by the database. -/
  | UniqueViolation (constraint : String)
  deriving DecidableEq, Repr

deriving instance DecidableEq for Except

/-! ## Data model -/

/-- Modelled from the spec: the public lifecycle enum `State` (declared outside
`notification/store.go`). -/
inductive State
  | StatePending
  | StateSending
  | StateSent
  | StateDelivered
  | StateFailedTemp
  | StateFailedPerm
  deriving DecidableEq, Repr

/-- Modelled from the spec: the enumerated `message_type` column, Go type `MessageType`
(declared outside `notification/store.go`). -/
inductive MessageType
  | alert_notification
  | verification_code
  | test_notification
  | status_update
  deriving DecidableEq, Repr

/-- A row of `outgoing_messages`. -/
structure OutgoingMessage where
  id : String
  message_type : MessageType
  contact_method_id : Option String
  channel_id : Option String
  user_id : Option String
  alert_id : Option Int
  created_at : Time
  sent_at : Option Time
  next_retry_at : Option Time
  last_status : String
  status_details : String
  provider_msg_id : Option String
  provider_seq : Int
  deriving DecidableEq, Repr

/-- A row of `user_contact_methods`. -/
structure ContactMethod where
  id : String
  user_id : String
  disabled : Bool
  last_test_verify_at : Option Time
  deriving DecidableEq, Repr

/-- A row of `user_verification_codes`. -/
structure VerificationCode where
  id : String
  contact_method_id : String
  code : Int
  expires_at : Time
  sent : Bool
  deriving DecidableEq, Repr

/-- The contents of the relational store behind the Go `DB` handle.  Each table lists its rows
in the order a sequential scan yields them. -/
structure DB where
  outgoing_messages : List OutgoingMessage
  user_contact_methods : List ContactMethod
  user_verification_codes : List VerificationCode
  deriving DecidableEq, Repr

/-- Modelled from the spec: `SendResult`, the public projection of an outgoing message
(declared outside `notification/store.go`). -/
structure SendResult where
  ID : String
  State : State
  Details : String
  ProviderMessageID : Option String
  Sequence : Int
  deriving DecidableEq, Repr

/-- Modelled from the spec: the tag of a destination, user contact method or shared channel
(Go type `DestType`, declared outside `notification/store.go`). -/
inductive DestType
  | UserCM
  | Channel
  deriving DecidableEq, Repr

/-- Modelled from the spec: `DestType.IsUserCM`. -/
def DestType.IsUserCM : DestType → Bool
  | .UserCM => true
  | .Channel => false

/-- Modelled from the spec: a tagged destination `Dest` (declared outside
`notification/store.go`). -/
structure Dest where
  ID : String
  Type_ : DestType
  deriving DecidableEq, Repr

/-! ## Authorization and validation (packages `permission` and `validate`) -/

/-- Modelled from the spec: the caller identity carried by the request context, a principal
and its role claims (package `permission` is not part of the embedded sources). -/
structure Context where
  system : Bool
  user : Bool
  admin : Bool
  userID : String
  deriving DecidableEq, Repr

/-- Modelled from the spec: checker `permission.System`, internal components only. -/
def permission.System (ctx : Context) : Bool := ctx.system

/-- Modelled from the spec: checker `permission.User`, any authenticated user. -/
def permission.User (ctx : Context) : Bool := ctx.user

/-- Modelled from the spec: checker `permission.Admin`, the caller holds admin. -/
def permission.Admin (ctx : Context) : Bool := ctx.admin

/-- Modelled from the spec: checker `permission.MatchUser(userID)`, the caller is an
authenticated user whose id is `userID`. -/
def permission.MatchUser (userID : String) (ctx : Context) : Bool :=
  ctx.user && decide (ctx.userID = userID)

/-- Modelled from the spec: `permission.LimitCheckAny`, which accepts the caller when at least
one of the listed checkers does and fails with PermissionDenied otherwise. -/
def permission.LimitCheckAny (ctx : Context) (checks : List (Context → Bool)) : Except Error Unit :=
  if checks.any (fun c => c ctx) then .ok () else .error .PermissionDenied

/-- Modelled from the spec: `validate.UUID(fname, id)`, a FieldError naming the offending field
when `id` is not a valid UUID.  The syntax check itself is the argument `isUUID`. -/
def validate.UUID (isUUID : String → Bool) (fname id : String) : Except Error Unit :=
  if isUUID id then .ok () else .error (.FieldError fname "must be a valid UUID")

/-- Modelled from the spec: `validate.ManyUUID(fname, ids, max)`, a FieldError on `fname` when
there are more than `max` ids or one of them is not a valid UUID. -/
def validate.ManyUUID (isUUID : String → Bool) (fname : String) (ids : List String) (max : Nat) :
    Except Error Unit :=
  if max < ids.length then .error (.FieldError fname "must not have more than max")
  else if ids.all isUUID then .ok ()
  else .error (.FieldError fname "must be a valid UUID")

/-! ## Prepared statements -/

/-- The seven columns selected by the status queries: id, last_status, status_details,
provider_msg_id, provider_seq, `next_retry_at notnull`, created_at. -/
structure StatusRow where
  id : String
  last_status : String
  status_details : String
  provider_msg_id : Option String
  provider_seq : Int
  has_next_retry : Bool
  created_at : Time
  deriving DecidableEq, Repr

/-- The select list shared by `origAlertMessage` and `lastMessageStatus`. -/
def OutgoingMessage.statusRow (m : OutgoingMessage) : StatusRow :=
  { id := m.id, last_status := m.last_status, status_details := m.status_details,
    provider_msg_id := m.provider_msg_id, provider_seq := m.provider_seq,
    has_next_retry := m.next_retry_at.isSome, created_at := m.created_at }

/-- SQL comparison `col = $n` of a nullable uuid column with a nullable text argument, used as
a filter: the argument is read as a uuid value, and the comparison holds only when both sides
are non-null and are the same value. -/
def sqlEq (uuidValue : String → Option String) (col arg : Option String) : Bool :=
  match col, arg.bind uuidValue with
  | some c, some a => decide (c = a)
  | _, _ => false

/-- Ascending `order by sent_at`: NULL sorts after every timestamp. -/
def sentAtLE (a b : Option Time) : Prop :=
  match a, b with
  | some x, some y => x ≤ y
  | some _, none => True
  | none, some _ => False
  | none, none => True

instance (a b : Option Time) : Decidable (sentAtLE a b) := by
  unfold sentAtLE; split <;> infer_instance

/-- The ordering `order by sent_at` puts on rows. -/
def bySentAt (a b : OutgoingMessage) : Prop := sentAtLE a.sent_at b.sent_at

instance : DecidableRel bySentAt := fun a b => by
  unfold bySentAt; infer_instance

/-- Statement `origAlertMessage` with arguments `$1 = alertID`, `$2 = cmID`, `$3 = chanID`:
the alert notifications of the alert for the destination, ordered by sent_at, limit 1. -/
def origAlertMessage (uuidValue : String → Option String) (db : DB) (alertID : Int)
    (cmID chanID : Option String) : List StatusRow :=
  (((db.outgoing_messages.filter (fun m =>
      decide (m.message_type = MessageType.alert_notification) &&
      decide (m.alert_id = some alertID) &&
      (sqlEq uuidValue m.contact_method_id cmID ||
        sqlEq uuidValue m.channel_id chanID))).insertionSort
        bySentAt).take 1).map OutgoingMessage.statusRow

/-- Statement `getCMUserID`. -/
def getCMUserID (db : DB) (id : String) : List String :=
  (db.user_contact_methods.filter (fun cm => decide (cm.id = id))).map (fun cm => cm.user_id)

/-- Statement `isDisabled`. -/
def isDisabled (db : DB) (id : String) : List Bool :=
  (db.user_contact_methods.filter (fun cm => decide (cm.id = id))).map (fun cm => cm.disabled)

/-- Statement `setVerificationCode` with arguments `$1 = id`, `$2 = cmID`, `$3 = code`, run at
transaction time `now`: insert the row, or on a conflict on contact_method_id reset `sent` and
refresh `expires_at` of the existing row.  A clash of the new id with the primary key of another
row is a unique violation. -/
def setVerificationCode (db : DB) (now : Time) (id cmID : String) (code : Int) : Except Error DB :=
  if db.user_verification_codes.any (fun v => decide (v.contact_method_id = cmID)) then
    .ok { db with user_verification_codes := db.user_verification_codes.map (fun v =>
            if v.contact_method_id = cmID then
              { v with sent := false, expires_at := now + fifteenMinutes }
            else v) }
  else if db.user_verification_codes.any (fun v => decide (v.id = id)) then
    .error (.UniqueViolation "user_verification_codes_pkey")
  else
    .ok { db with user_verification_codes := db.user_verification_codes ++
            [{ id := id, contact_method_id := cmID, code := code,
               expires_at := now + fifteenMinutes, sent := false }] }

/-- The `where` clause of the `delete` inside `verifyAndEnableContactMethod`. -/
def codeMatches (cmID : String) (code : Int) (v : VerificationCode) : Bool :=
  decide (v.contact_method_id = cmID) && decide (v.code = code)

/-- Statement `verifyAndEnableContactMethod` with arguments `$1 = cmID`, `$2 = code`: delete the
matching verification codes, enable every contact method joined to a deleted row, and report
the number of contact methods updated. -/
def verifyAndEnableContactMethod (db : DB) (cmID : String) (code : Int) : DB × Nat :=
  let v := (db.user_verification_codes.filter (codeMatches cmID code)).map
    (fun r => r.contact_method_id)
  ({ db with
      user_verification_codes :=
        db.user_verification_codes.filter (fun r => !codeMatches cmID code r)
      user_contact_methods := db.user_contact_methods.map (fun cm =>
        if v.any (fun i => decide (cm.id = i)) then { cm with disabled := false } else cm) },
   (db.user_contact_methods.filter (fun cm => v.any (fun i => decide (cm.id = i)))).length)

/-- The `where` clause of `updateLastSendTime`. -/
def sendAllowed (now : Time) (id : String) (interval : Int) (cm : ContactMethod) : Bool :=
  decide (cm.id = id) &&
    (match cm.last_test_verify_at with
     | some t => decide (t + interval < now)
     | none => true)

/-- Statement `updateLastSendTime` with arguments `$1 = id`, `$2 = interval`, run at transaction
time `now`; the second component is the number of rows affected. -/
def updateLastSendTime (db : DB) (now : Time) (id : String) (interval : Int) : DB × Nat :=
  ({ db with user_contact_methods := db.user_contact_methods.map (fun cm =>
      if sendAllowed now id interval cm then { cm with last_test_verify_at := some now } else cm) },
   (db.user_contact_methods.filter (sendAllowed now id interval)).length)

/-- Modelled from the spec: the row `insertTestNotification` writes for contact method `cm`.
The statement names id, message_type, contact_method_id and user_id; the other columns take the
defaults of the schema (kept outside the embedded sources): created at the transaction time,
status pending, sequence 0, everything else empty. -/
def testNotificationRow (now : Time) (id cmID : String) (cm : ContactMethod) : OutgoingMessage :=
  { id := id, message_type := MessageType.test_notification, contact_method_id := some cmID,
    channel_id := none, user_id := some cm.user_id, alert_id := none, created_at := now,
    sent_at := none, next_retry_at := none, last_status := "pending", status_details := "",
    provider_msg_id := none, provider_seq := 0 }

/-- Statement `insertTestNotification` with arguments `$1 = id`, `$2 = cmID`: one new row per
contact method with that id.  A clash with the primary key is a unique violation. -/
def insertTestNotification (db : DB) (now : Time) (id cmID : String) : Except Error DB :=
  let rows := (db.user_contact_methods.filter (fun cm => decide (cm.id = cmID))).map
    (testNotificationRow now id cmID)
  if rows.isEmpty then .ok db
  else if db.outgoing_messages.any (fun m => decide (m.id = id)) || decide (1 < rows.length) then
    .error (.UniqueViolation "outgoing_messages_pkey")
  else .ok { db with outgoing_messages := db.outgoing_messages ++ rows }

/-- Statement `findManyMessageStatuses` with argument `$1 = sqlutil.UUIDArray(ids)`: the array
holds the uuid values of the listed texts, and `id = any($1)` selects the rows whose id is one
of these values. -/
def findManyMessageStatuses (uuidValue : String → Option String) (db : DB)
    (ids : List String) : List StatusRow :=
  (db.outgoing_messages.filter (fun m => decide (m.id ∈ ids.filterMap uuidValue))).map
    OutgoingMessage.statusRow

/-- Statement `lastMessageStatus` with arguments `$1 = typ`, `$2 = cmID`, `$3 = since`.  The
statement has neither an `order by` nor a `limit`: rows come in scan order. -/
def lastMessageStatus (db : DB) (typ : MessageType) (cmID : String) (since : Time) :
    List StatusRow :=
  (db.outgoing_messages.filter (fun m =>
      decide (m.message_type = typ) && decide (m.contact_method_id = some cmID) &&
      decide (since ≤ m.created_at))).map OutgoingMessage.statusRow

/-- Go `QueryRowContext`: the first row of the result, if any; scanning a missing row yields
`sql.ErrNoRows`. -/
def queryRow {α : Type} (rows : List α) : Option α := rows.head?

/-! ## Methods of the store -/

/-- Source function `messageStateFromStatus`. -/
def messageStateFromStatus (lastStatus : String) (hasNextRetry : Bool) : Except Error State :=
  match lastStatus with
  | "queued_remotely" | "sending" => .ok .StateSending
  | "pending" => .ok .StatePending
  | "sent" => .ok .StateSent
  | "delivered" => .ok .StateDelivered
  | "failed" | "bundled" =>
    if hasNextRetry then .ok .StateFailedTemp else .ok .StateFailedPerm
  | _ => .error (.Errorf ("unknown last_status " ++ lastStatus))

/-- Source function `scanStatus`: project the scanned row, `(nil, time.Time{}, nil)` when the
query produced none. -/
def scanStatus (row : Option StatusRow) : Except Error (Option SendResult × Time) :=
  match row with
  | none => .ok (none, zeroTime)
  | some r =>
    match messageStateFromStatus r.last_status r.has_next_retry with
    | .error e => .error e
    | .ok st =>
      .ok (some { ID := r.id, State := st, Details := r.status_details,
                  ProviderMessageID := r.provider_msg_id, Sequence := r.provider_seq },
           r.created_at)

/-- Source method `DB.OriginalMessageStatus`.  The text `dst.ID` is valid for `validate.UUID`
exactly when it denotes a uuid value. -/
def DB.OriginalMessageStatus (uuidValue : String → Option String) (db : DB) (ctx : Context)
    (alertID : Int) (dst : Dest) : Except Error (Option SendResult) :=
  match permission.LimitCheckAny ctx [permission.System] with
  | .error e => .error e
  | .ok _ =>
    match validate.UUID (fun s => (uuidValue s).isSome) "Dest.ID" dst.ID with
    | .error e => .error e
    | .ok _ =>
      let cmID : Option String := if dst.Type_.IsUserCM then some dst.ID else none
      let chanID : Option String := if dst.Type_.IsUserCM then none else some dst.ID
      match scanStatus (queryRow (origAlertMessage uuidValue db alertID cmID chanID)) with
      | .error e => .error e
      | .ok (s, _) => .ok s

/-- Source method `DB.cmUserID`. -/
def DB.cmUserID (isUUID : String → Bool) (db : DB) (ctx : Context) (id : String) :
    Except Error String :=
  match permission.LimitCheckAny ctx [permission.User, permission.Admin] with
  | .error e => .error e
  | .ok _ =>
    match validate.UUID isUUID "ContactMethodID" id with
    | .error e => .error e
    | .ok _ =>
      match queryRow (getCMUserID db id) with
      | none => .error (.FieldError "ContactMethodID" "does not exist")
      | some userID =>
        match permission.LimitCheckAny ctx [permission.Admin, permission.MatchUser userID] with
        | .error e => .error e
        | .ok _ => .ok userID

/-- Source method `DB.SendContactMethodTest`, run at transaction time `now` with `vID` the
UUID drawn for the new message.  The row-exclusive table lock has no effect on the tables. -/
def DB.SendContactMethodTest (isUUID : String → Bool) (db : DB) (ctx : Context) (now : Time)
    (vID id : String) : Except Error Unit × DB :=
  match db.cmUserID isUUID ctx id with
  | .error e => (.error e, db)
  | .ok _ =>
    match queryRow (isDisabled db id) with
    | none => (.error .ErrNoRows, db)
    | some true => (.error (.FieldError "ContactMethod" "contact method disabled"), db)
    | some false =>
      let r := updateLastSendTime db now id (intervalOf minTimeBetweenTests)
      if r.2 ≠ 1 then
        (.error (.FieldError "ContactMethod" "test message rate-limit exceeded"), db)
      else
        match insertTestNotification r.1 now vID id with
        | .error e => (.error e, db)
        | .ok db2 => (.ok (), db2)

/-- Source method `DB.SendContactMethodVerification`, run at transaction time `now` with `vcID`
the UUID drawn for the code row and `rnd` the value of `db.rand.Intn(900000)`.  The rate-limit
text is `fmt.Sprintf` of `minTimeBetweenTests.Minutes()` with `%.0f`, which renders `1`. -/
def DB.SendContactMethodVerification (isUUID : String → Bool) (db : DB) (ctx : Context)
    (now : Time) (vcID : String) (rnd : Fin 900000) (cmID : String) : Except Error Unit × DB :=
  match db.cmUserID isUUID ctx cmID with
  | .error e => (.error e, db)
  | .ok _ =>
    let r := updateLastSendTime db now cmID (intervalOf minTimeBetweenTests)
    if r.2 ≠ 1 then
      (.error (.FieldError "ContactMethod"
        "Too many messages! Please try again in 1 minute(s)"), db)
    else
      let code : Int := (rnd.val : Int) + 100000
      match setVerificationCode r.1 now vcID cmID code with
      | .error e => (.error (.Wrap e "set verification code"), db)
      | .ok db2 => (.ok (), db2)

/-- Source method `DB.VerifyContactMethod`.  The statement runs outside any transaction, so the
tables it leaves behind are returned whatever the method reports.  `ExecContext` does not
produce `sql.ErrNoRows`, so the first error branch of the source has no counterpart here. -/
def DB.VerifyContactMethod (isUUID : String → Bool) (db : DB) (ctx : Context) (cmID : String)
    (code : Int) : Except Error Unit × DB :=
  match db.cmUserID isUUID ctx cmID with
  | .error e => (.error e, db)
  | .ok _ =>
    let r := verifyAndEnableContactMethod db cmID code
    if r.2 ≠ 1 then (.error (.FieldError "code" "invalid code"), r.1)
    else (.ok (), r.1)

/-- The loop of `DB.FindManyMessageStatuses` over the scanned rows: it stops at the first row
whose status is unknown. -/
def scanAll : List StatusRow → Except Error (List SendResult)
  | [] => .ok []
  | r :: rest =>
    match messageStateFromStatus r.last_status r.has_next_retry with
    | .error e => .error e
    | .ok st =>
      match scanAll rest with
      | .error e => .error e
      | .ok out =>
        .ok ({ ID := r.id, State := st, Details := r.status_details,
               ProviderMessageID := r.provider_msg_id, Sequence := r.provider_seq } :: out)

/-- Source method `DB.FindManyMessageStatuses`; `MaxResults` is the constant
`search.MaxResults`, declared outside the embedded sources.  A listed text is valid for
`validate.ManyUUID` exactly when it denotes a uuid value. -/
def DB.FindManyMessageStatuses (uuidValue : String → Option String) (MaxResults : Nat)
    (db : DB) (ctx : Context) (ids : List String) : Except Error (List SendResult) :=
  match permission.LimitCheckAny ctx [permission.User] with
  | .error e => .error e
  | .ok _ =>
    if ids.length = 0 then .ok []
    else
      match validate.ManyUUID (fun s => (uuidValue s).isSome) "IDs" ids MaxResults with
      | .error e => .error e
      | .ok _ => scanAll (findManyMessageStatuses uuidValue db ids)

/-- Source method `DB.LastMessageStatus`. -/
def DB.LastMessageStatus (isUUID : String → Bool) (db : DB) (ctx : Context) (typ : MessageType)
    (cmID : String) (since : Time) : Except Error (Option SendResult × Time) :=
  match permission.LimitCheckAny ctx [permission.User] with
  | .error e => .error e
  | .ok _ =>
    match validate.UUID isUUID "Contact Method ID" cmID with
    | .error e => .error e
    | .ok _ => scanStatus (queryRow (lastMessageStatus db typ cmID since))

/-! ## Specification-side definitions -/

/-- The seven documented `last_status` tokens. -/
def knownStatuses : List String :=
  ["queued_remotely", "sending", "pending", "sent", "delivered", "failed", "bundled"]

/-- The state-projection table as the specification words it, row by row; `none` stands for
the failing last row. -/
def specStateTable (lastStatus : String) (hasNextRetry : Bool) : Option State :=
  if lastStatus = "queued_remotely" ∨ lastStatus = "sending" then some State.StateSending
  else if lastStatus = "pending" then some State.StatePending
  else if lastStatus = "sent" then some State.StateSent
  else if lastStatus = "delivered" then some State.StateDelivered
  else if lastStatus = "failed" ∨ lastStatus = "bundled" then
    (if hasNextRetry = true then some State.StateFailedTemp else some State.StateFailedPerm)
  else none

/-- Primary key of `user_contact_methods`: no two rows share an id. -/
def uniqueContactMethodIDs (db : DB) : Prop :=
  db.user_contact_methods.Pairwise (fun a b => a.id ≠ b.id)

instance (db : DB) : Decidable (uniqueContactMethodIDs db) := by
  unfold uniqueContactMethodIDs; infer_instance

/-- Exactly one contact method has id `cmID`, and its last_test_verify_at is `T`. -/
def stampedAt (db : DB) (cmID : String) (T : Time) : Prop :=
  (db.user_contact_methods.filter (fun cm => decide (cm.id = cmID))).length = 1 ∧
    ∀ cm ∈ db.user_contact_methods, cm.id = cmID → cm.last_test_verify_at = some T

/-! ### Example data -/

/-- A syntax check that accepts every id, for the examples. -/
def anyUUID : String → Bool := fun _ => true

/-- An example user id. -/
def userA : String := "0b7e5f9c-6a1d-4c58-9e0a-3d2f4a6b8c10"

/-- An example contact-method id. -/
def cmA : String := "5d1c2e3f-8a4b-4f6d-b7c9-1e0f2a3b4c5d"

/-- An example caller: the authenticated user `userA`, neither admin nor system. -/
def callerA : Context := { system := false, user := true, admin := false, userID := userA }

/-- An example system caller. -/
def callerSystem : Context := { system := true, user := false, admin := false, userID := "" }

/-- An enabled contact method of `userA` that was never tested. -/
def enabledCM : ContactMethod :=
  { id := cmA, user_id := userA, disabled := false, last_test_verify_at := none }

/-- A disabled contact method of `userA` that was never tested. -/
def disabledCM : ContactMethod :=
  { id := cmA, user_id := userA, disabled := true, last_test_verify_at := none }

/-- A store holding only the enabled contact method. -/
def enabledDB : DB :=
  { outgoing_messages := [], user_contact_methods := [enabledCM], user_verification_codes := [] }

/-- The store `enabledDB` after a test message `m1` was sent at time 1000. -/
def testedDB : DB :=
  { outgoing_messages := [testNotificationRow 1000 "a0000000-0000-4000-8000-000000000001" cmA
      enabledCM],
    user_contact_methods := [{ enabledCM with last_test_verify_at := some 1000 }],
    user_verification_codes := [] }

/-- Unique constraint of `user_verification_codes`: at most one row per contact method. -/
def uniqueCodePerContactMethod (db : DB) : Prop :=
  db.user_verification_codes.Pairwise (fun a b => a.contact_method_id ≠ b.contact_method_id)

instance (db : DB) : Decidable (uniqueCodePerContactMethod db) := by
  unfold uniqueCodePerContactMethod; infer_instance

/-- An expired verification code (expires_at = 500) for the contact method `cmA`. -/
def staleCode : VerificationCode :=
  { id := "c0000000-0000-4000-8000-000000000001", contact_method_id := cmA, code := 123456,
    expires_at := 500, sent := true }

/-- A store with the disabled contact method and its expired verification code. -/
def staleCodeDB : DB :=
  { outgoing_messages := [], user_contact_methods := [disabledCM],
    user_verification_codes := [staleCode] }

/-- The store `staleCodeDB` after the code was verified: contact method enabled, code gone. -/
def verifiedDB : DB :=
  { outgoing_messages := [], user_contact_methods := [{ disabledCM with disabled := false }],
    user_verification_codes := [] }

/-- The public projection of an outgoing message as the specification describes it: the
result carries the row's id, status_details, provider_msg_id and provider_seq, and its State is
`messageStateFromStatus(last_status, next_retry_at is not null)`. -/
def projects (m : OutgoingMessage) (r : SendResult) : Prop :=
  r.ID = m.id ∧ r.Details = m.status_details ∧ r.ProviderMessageID = m.provider_msg_id ∧
    r.Sequence = m.provider_seq ∧
    messageStateFromStatus m.last_status m.next_retry_at.isSome = Except.ok r.State

/-- The rows a first-notification lookup is about: alert notifications of alert `alertID` whose
destination column selected by the type of `dst` (contact_method_id for a user contact method,
channel_id otherwise) equals `dst.ID`, as uuid values. -/
def isAlertNotificationFor (uuidValue : String → Option String) (alertID : Int) (dst : Dest)
    (m : OutgoingMessage) : Bool :=
  decide (m.message_type = MessageType.alert_notification) &&
    decide (m.alert_id = some alertID) &&
    (match uuidValue dst.ID with
     | some v =>
       decide ((if dst.Type_.IsUserCM = true then m.contact_method_id else m.channel_id)
         = some v)
     | none => false)

/-- The rows a bulk lookup asks for: the id of the row occurs in `ids`, that is, one of the
listed texts denotes the uuid value the row has as its id. -/
def isRequested (uuidValue : String → Option String) (ids : List String)
    (m : OutgoingMessage) : Bool :=
  ids.any (fun t => decide (uuidValue t = some m.id))

/-- An example reading of uuid texts: 36 characters, hyphens at positions 8, 13, 18 and 23,
hexadecimal digits of either case elsewhere; the value is the lower-case text. -/
def readUUID (s : String) : Option String :=
  if s.data.length = 36 ∧
      s.data.enum.all (fun ic =>
        if ic.1 = 8 ∨ ic.1 = 13 ∨ ic.1 = 18 ∨ ic.1 = 23 then ic.2 == '-'
        else ic.2.isDigit || ('a' ≤ ic.2 && ic.2 ≤ 'f') || ('A' ≤ ic.2 && ic.2 ≤ 'F')) then
    some (String.mk (s.data.map Char.toLower))
  else none

/-- Primary key of `outgoing_messages`: no two rows share an id. -/
def uniqueMessageIDs (db : DB) : Prop :=
  db.outgoing_messages.Pairwise (fun a b => a.id ≠ b.id)

instance (db : DB) : Decidable (uniqueMessageIDs db) := by
  unfold uniqueMessageIDs; infer_instance

/-- Every row of `outgoing_messages` carries one of the documented status tokens. -/
def knownStatusesOnly (db : DB) : Prop :=
  ∀ m ∈ db.outgoing_messages, m.last_status ∈ knownStatuses

instance (db : DB) : Decidable (knownStatusesOnly db) := by
  unfold knownStatusesOnly; infer_instance

/-- An example test notification for `cmA`, created at 1000 and sent at 1100. -/
def olderTest : OutgoingMessage :=
  { id := "a0000000-0000-4000-8000-000000000001", message_type := MessageType.test_notification,
    contact_method_id := some cmA, channel_id := none, user_id := some userA, alert_id := none,
    created_at := 1000, sent_at := some 1100, next_retry_at := none, last_status := "delivered",
    status_details := "first", provider_msg_id := some "sms:1", provider_seq := 2 }

/-- A later test notification for `cmA`, created at 5000 and sent at 5100. -/
def newerTest : OutgoingMessage :=
  { id := "a0000000-0000-4000-8000-000000000002", message_type := MessageType.test_notification,
    contact_method_id := some cmA, channel_id := none, user_id := some userA, alert_id := none,
    created_at := 5000, sent_at := some 5100, next_retry_at := none, last_status := "sent",
    status_details := "second", provider_msg_id := some "sms:2", provider_seq := 1 }

/-- A store whose message table holds the two test notifications in insertion order. -/
def twoTestsDB : DB :=
  { outgoing_messages := [olderTest, newerTest], user_contact_methods := [enabledCM],
    user_verification_codes := [] }

/-- An alert notification of alert 42 for `cmA`, sent at `t`. -/
def alertNote (id : String) (t : Time) : OutgoingMessage :=
  { id := id, message_type := MessageType.alert_notification, contact_method_id := some cmA,
    channel_id := none, user_id := some userA, alert_id := some 42, created_at := t - 10,
    sent_at := some t, next_retry_at := none, last_status := "sent", status_details := "",
    provider_msg_id := none, provider_seq := 1 }

/-- A store with two notifications of alert 42 for `cmA`; the later one comes first in scan
order. -/
def twoAlertsDB : DB :=
  { outgoing_messages := [alertNote "b0000000-0000-4000-8000-000000000002" 7000,
      alertNote "b0000000-0000-4000-8000-000000000001" 3000],
    user_contact_methods := [enabledCM], user_verification_codes := [] }

instance : IsTotal OutgoingMessage bySentAt where
  total a b := by
    unfold bySentAt sentAtLE
    cases a.sent_at <;> cases b.sent_at <;> simp
    exact le_total _ _

instance : IsTrans OutgoingMessage bySentAt where
  trans a b c := by
    unfold bySentAt sentAtLE
    cases a.sent_at <;> cases b.sent_at <;> cases c.sent_at <;> simp
    exact fun h1 h2 => le_trans h1 h2

/-- The destination "user contact method `cmA`". -/
def destA : Dest := { ID := cmA, Type_ := DestType.UserCM }

/-- Two requested message ids: the id of `newerTest` written in upper case, and an id that
is not stored. -/
def requestedIDs : List String :=
  ["A0000000-0000-4000-8000-000000000002", "a0000000-0000-4000-8000-0000000000ff"]

/-- The same destination with its id written in upper case. -/
def destUpperA : Dest :=
  { ID := "5D1C2E3F-8A4B-4F6D-B7C9-1E0F2A3B4C5D", Type_ := DestType.UserCM }

/-- The store `staleCodeDB` after a verification was requested again at time 2000: the stored
code row keeps its id and code, is unsent again and expires 15 minutes later. -/
def resentDB : DB :=
  { outgoing_messages := [],
    user_contact_methods := [{ disabledCM with last_test_verify_at := some 2000 }],
    user_verification_codes :=
      [{ staleCode with sent := false, expires_at := 2000 + fifteenMinutes }] }

/-- Another example user id. -/
def userB : String := "7c3d9e2a-4b5f-4a61-8d70-9f1e2d3c4b5a"

/-- An example caller: the authenticated user `userB`, neither admin nor system. -/
def callerB : Context := { system := false, user := true, admin := false, userID := userB }

/-- An example caller holding admin, with the id `userB`. -/
def callerAdmin : Context := { system := false, user := true, admin := true, userID := userB }

/-! ## Slack action requests (`notification/slack/actions.go`) -/

/-- The value a Go `int64` computation keeps of the mathematical result `x`: two's-complement
wrap-around modulo 2^64 into [-2^63, 2^63). -/
def slack.wrapInt64 (x : Int) : Int := (x + 2 ^ 63) % 2 ^ 64 - 2 ^ 63

/-- Source function `abs` of the slack package, on `int64`: the negation wraps. -/
def slack.abs (x : Int) : Int := if x < 0 then slack.wrapInt64 (-x) else x

/-- The digits loop of Go `strconv.ParseUint` in base 10: `none` on any other character. -/
def slack.parseDigits : List Char → Nat → Option Nat
  | [], acc => some acc
  | c :: cs, acc =>
    if c.isDigit then slack.parseDigits cs (acc * 10 + (c.toNat - 48)) else none

/-- The magnitude part of Go `strconv.ParseInt(s, 10, 64)`: at least one digit, and a value
within the bound the sign allows. -/
def slack.parseMagnitude (neg : Bool) (ds : List Char) : Option Int :=
  if ds.isEmpty then none
  else
    match slack.parseDigits ds 0 with
    | none => none
    | some n =>
      if neg then (if n ≤ 2 ^ 63 then some (-(n : Int)) else none)
      else (if n < 2 ^ 63 then some (n : Int) else none)

/-- Go `strconv.ParseInt(s, 10, 64)`: an optional sign followed by decimal digits; `none`
stands for a syntax or range error. -/
def slack.ParseInt (s : String) : Option Int :=
  match s.data with
  | [] => none
  | '-' :: ds => slack.parseMagnitude true ds
  | '+' :: ds => slack.parseMagnitude false ds
  | ds => slack.parseMagnitude false ds

/-- The parts of the incoming `http.Request` that `validRequest` reads: the method, the headers
X-Slack-Request-Timestamp and X-Slack-Signature, and the body (`none` when reading it fails). -/
structure slack.Request where
  Method : String
  Timestamp : String
  Signature : String
  Body : Option String
  deriving DecidableEq, Repr

/-- Source function `validRequest`, evaluated at local Unix time `now` with signing secret
`secret`; `hmacHex key msg` is the hex-encoded HMAC-SHA256 of `msg` under `key`.  The result
pairs the returned flag with the HTTP status written to the response, if any. -/
def slack.validRequest (hmacHex : String → String → String) (secret : String) (now : Int)
    (req : slack.Request) : Bool × Option Nat :=
  if req.Method ≠ "POST" then (false, some 405)
  else
    match slack.ParseInt req.Timestamp with
    | none => (false, some 422)
    | some ts =>
      if slack.abs (slack.wrapInt64 (now - ts)) > 60 * 5 then (false, none)
      else
        match req.Body with
        | none => (false, some 422)
        | some body =>
          (decide (req.Signature =
            "v0=" ++ hmacHex secret ("v0:" ++ req.Timestamp ++ ":" ++ body)), none)

/-- A timestamp header 2^63 seconds before the local time 1700000000. -/
def distantTimestamp : String := "-9223372035154775808"

/-- A POST request carrying `distantTimestamp` and the signature Slack's scheme prescribes for
it and the body. -/
def distantRequest (hmacHex : String → String → String) (secret body : String) :
    slack.Request :=
  { Method := "POST", Timestamp := distantTimestamp,
    Signature := "v0=" ++ hmacHex secret ("v0:" ++ distantTimestamp ++ ":" ++ body),
    Body := some body }

/-! # Theorems -/

/-! ## State projection -/

/-- C1: for every last_status and has_next_retry, `messageStateFromStatus` returns exactly the
value of the specification table, and it returns an error if and only if last_status is not one
of the seven documented tokens. -/
theorem messageStateFromStatus_eq_specStateTable (lastStatus : String) (hasNextRetry : Bool) :
    (messageStateFromStatus lastStatus hasNextRetry).toOption
        = specStateTable lastStatus hasNextRetry ∧
      ((∃ e, messageStateFromStatus lastStatus hasNextRetry = Except.error e) ↔
        lastStatus ∉ knownStatuses) := by
  unfold messageStateFromStatus specStateTable knownStatuses
  split <;> cases hasNextRetry <;> simp_all [Except.toOption]

/-! ## Rate limit of test and verification sends -/

theorem filter_id_length_le_one (cms : List ContactMethod) (id : String)
    (h : cms.Pairwise (fun a b => a.id ≠ b.id)) :
    (cms.filter (fun cm => decide (cm.id = id))).length ≤ 1 := by
  induction cms with
  | nil => simp
  | cons a l ih =>
    rw [List.pairwise_cons] at h
    by_cases ha : a.id = id
    · have hnil : l.filter (fun cm => decide (cm.id = id)) = [] := by
        rw [List.filter_eq_nil_iff]
        intro b hb
        have := h.1 b hb
        simp only [decide_eq_true_eq]
        intro hbid
        exact this (ha.trans hbid.symm)
      simp [List.filter_cons, ha, hnil]
    · simpa [List.filter_cons, ha] using ih h.2

theorem sendAllowed_id {now : Time} {id : String} {iv : Int} {cm : ContactMethod}
    (h : sendAllowed now id iv cm = true) : cm.id = id := by
  unfold sendAllowed at h
  simp only [Bool.and_eq_true, decide_eq_true_eq] at h
  exact h.1

theorem updateLastSendTime_stamped (db : DB) (T : Time) (cmID : String) (iv : Int)
    (hpk : uniqueContactMethodIDs db) (h : (updateLastSendTime db T cmID iv).2 = 1) :
    stampedAt (updateLastSendTime db T cmID iv).1 cmID T := by
  unfold updateLastSendTime at h ⊢
  simp only at h ⊢
  have hsub : (db.user_contact_methods.filter (sendAllowed T cmID iv)).Sublist
      (db.user_contact_methods.filter (fun cm => decide (cm.id = cmID))) := by
    have : db.user_contact_methods.filter (sendAllowed T cmID iv) =
        (db.user_contact_methods.filter (fun cm => decide (cm.id = cmID))).filter
          (sendAllowed T cmID iv) := by
      rw [List.filter_filter]
      apply List.filter_congr
      intro x _
      by_cases hx : sendAllowed T cmID iv x = true
      · simp [hx, sendAllowed_id hx]
      · simp [hx]
    rw [this]
    exact List.filter_sublist _
  have hle := filter_id_length_le_one db.user_contact_methods cmID hpk
  have hlen : (db.user_contact_methods.filter (fun cm => decide (cm.id = cmID))).length = 1 := by
    have := hsub.length_le
    omega
  have heq := hsub.eq_of_length (by rw [h, hlen])
  refine ⟨?_, ?_⟩
  · rw [List.filter_map]
    rw [List.length_map]
    rw [← hlen]
    congr 1
    apply List.filter_congr
    intro x _
    simp only [Function.comp]
    split <;> rfl
  · intro cm hcm hid
    rw [List.mem_map] at hcm
    obtain ⟨c0, hc0, rfl⟩ := hcm
    by_cases hx : sendAllowed T cmID iv c0 = true
    · simp [hx]
    · exfalso
      simp only [hx] at hid
      have hmem : c0 ∈ db.user_contact_methods.filter (fun cm => decide (cm.id = cmID)) := by
        rw [List.mem_filter]; exact ⟨hc0, by simpa using hid⟩
      rw [← heq, List.mem_filter] at hmem
      exact hx hmem.2

theorem updateLastSendTime_of_stamped (db : DB) (cmID : String) (T now : Time) (iv : Int)
    (h : stampedAt db cmID T) :
    (updateLastSendTime db now cmID iv).2 = if T + iv < now then 1 else 0 := by
  unfold updateLastSendTime
  simp only
  split
  · rename_i hlt
    rw [← h.1]
    congr 1
    apply List.filter_congr
    intro x hx
    unfold sendAllowed
    by_cases hid : x.id = cmID
    · simp [hid, h.2 x hx hid, hlt]
    · simp [hid]
  · rename_i hlt
    rw [List.length_eq_zero, List.filter_eq_nil_iff]
    intro x hx
    unfold sendAllowed
    by_cases hid : x.id = cmID
    · simp [hid, h.2 x hx hid, hlt]
    · simp [hid]

theorem SendContactMethodTest_ok (isUUID : String → Bool) (db db1 : DB) (ctx : Context)
    (T : Time) (vID cmID : String)
    (h : DB.SendContactMethodTest isUUID db ctx T vID cmID = (Except.ok (), db1)) :
    (updateLastSendTime db T cmID (intervalOf minTimeBetweenTests)).2 = 1 ∧
      db1.user_contact_methods =
        (updateLastSendTime db T cmID (intervalOf minTimeBetweenTests)).1.user_contact_methods := by
  unfold DB.SendContactMethodTest at h
  split at h
  · simp at h
  · split at h
    · simp at h
    · simp at h
    · dsimp only at h
      split at h
      · simp at h
      · rename_i hr
        refine ⟨by simpa using hr, ?_⟩
        split at h
        · simp at h
        · rename_i db2 hins
          simp only [Prod.mk.injEq, true_and] at h
          subst h
          unfold insertTestNotification at hins
          dsimp only at hins
          split at hins
          · simp only [Except.ok.injEq] at hins; rw [← hins]
          · split at hins
            · simp at hins
            · simp only [Except.ok.injEq] at hins; rw [← hins]

theorem SendContactMethodVerification_ok (isUUID : String → Bool) (db db1 : DB) (ctx : Context)
    (T : Time) (vcID : String) (rnd : Fin 900000) (cmID : String)
    (h : DB.SendContactMethodVerification isUUID db ctx T vcID rnd cmID = (Except.ok (), db1)) :
    (updateLastSendTime db T cmID (intervalOf minTimeBetweenTests)).2 = 1 ∧
      db1.user_contact_methods =
        (updateLastSendTime db T cmID (intervalOf minTimeBetweenTests)).1.user_contact_methods := by
  unfold DB.SendContactMethodVerification at h
  split at h
  · simp at h
  · dsimp only at h
    split at h
    · simp at h
    · rename_i hr
      refine ⟨by simpa using hr, ?_⟩
      split at h
      · simp at h
      · rename_i db2 hins
        simp only [Prod.mk.injEq, true_and] at h
        subst h
        unfold setVerificationCode at hins
        split at hins
        · simp only [Except.ok.injEq] at hins; rw [← hins]
        · split at hins
          · simp at hins
          · simp only [Except.ok.injEq] at hins; rw [← hins]

theorem intervalOf_minTimeBetweenTests : intervalOf minTimeBetweenTests = 60 * second := by
  decide

theorem updateLastSendTime_filter_id (db : DB) (now : Time) (id x : String) (iv : Int) :
    ((updateLastSendTime db now id iv).1.user_contact_methods.filter
        (fun cm => decide (cm.id = x))).length =
      (db.user_contact_methods.filter (fun cm => decide (cm.id = x))).length := by
  unfold updateLastSendTime
  simp only
  rw [List.filter_map, List.length_map]
  congr 1
  apply List.filter_congr
  intro c _
  simp only [Function.comp]
  split <;> rfl

theorem isDisabled_of_stamped (db : DB) (cmID : String) (T : Time) (h : stampedAt db cmID T)
    (hen : ∀ cm ∈ db.user_contact_methods, cm.id = cmID → cm.disabled = false) :
    queryRow (isDisabled db cmID) = some false := by
  unfold queryRow isDisabled
  obtain ⟨c, hc⟩ := List.length_eq_one.mp h.1
  have hmem : c ∈ db.user_contact_methods.filter (fun cm => decide (cm.id = cmID)) := by
    rw [hc]; simp
  rw [List.mem_filter] at hmem
  rw [hc]
  simp [hen c hmem.1 (by simpa using hmem.2)]

/-- C2 (amended): after a SendContactMethodTest or SendContactMethodVerification that succeeded
at time T, the contact method carries last_test_verify_at = T, and a second authorized call of
either operation at time T + d fails with the rate-limit FieldError on "ContactMethod", leaving
the store unchanged, whenever d is at most 60 seconds, and succeeds whenever d exceeds 60
seconds (the test on an enabled contact method with a fresh message id, the verification with a
fresh code-row id). -/
theorem send_rate_limit (isUUID : String → Bool) (db db1 : DB) (ctx ctx2 : Context) (T d : Int)
    (vID vcID vID2 vcID2 cmID : String) (rnd rnd2 : Fin 900000)
    (hpk : uniqueContactMethodIDs db)
    (hfirst : DB.SendContactMethodTest isUUID db ctx T vID cmID = (Except.ok (), db1) ∨
      DB.SendContactMethodVerification isUUID db ctx T vcID rnd cmID = (Except.ok (), db1))
    (hauth : ∃ u, db1.cmUserID isUUID ctx2 cmID = Except.ok u) :
    (∀ cm ∈ db1.user_contact_methods, cm.id = cmID → cm.last_test_verify_at = some T) ∧
    (d ≤ 60 * second →
      ((∀ cm ∈ db1.user_contact_methods, cm.id = cmID → cm.disabled = false) →
        DB.SendContactMethodTest isUUID db1 ctx2 (T + d) vID2 cmID =
          (Except.error (Error.FieldError "ContactMethod" "test message rate-limit exceeded"),
            db1)) ∧
      DB.SendContactMethodVerification isUUID db1 ctx2 (T + d) vcID2 rnd2 cmID =
        (Except.error (Error.FieldError "ContactMethod"
          "Too many messages! Please try again in 1 minute(s)"), db1)) ∧
    (60 * second < d →
      ((∀ cm ∈ db1.user_contact_methods, cm.id = cmID → cm.disabled = false) →
        (∀ m ∈ db1.outgoing_messages, m.id ≠ vID2) →
        (DB.SendContactMethodTest isUUID db1 ctx2 (T + d) vID2 cmID).1 = Except.ok ()) ∧
      ((∀ v ∈ db1.user_verification_codes, v.id ≠ vcID2) →
        (DB.SendContactMethodVerification isUUID db1 ctx2 (T + d) vcID2 rnd2 cmID).1 =
          Except.ok ())) := by
  have hfst : (updateLastSendTime db T cmID (intervalOf minTimeBetweenTests)).2 = 1 ∧
      db1.user_contact_methods =
        (updateLastSendTime db T cmID (intervalOf minTimeBetweenTests)).1.user_contact_methods := by
    rcases hfirst with h | h
    · exact SendContactMethodTest_ok isUUID db db1 ctx T vID cmID h
    · exact SendContactMethodVerification_ok isUUID db db1 ctx T vcID rnd cmID h
  have hst : stampedAt db1 cmID T := by
    have := updateLastSendTime_stamped db T cmID _ hpk hfst.1
    unfold stampedAt at this ⊢
    rw [hfst.2]; exact this
  have hupd := updateLastSendTime_of_stamped db1 cmID T (T + d)
    (intervalOf minTimeBetweenTests) hst
  rw [intervalOf_minTimeBetweenTests] at hupd
  obtain ⟨u, hu⟩ := hauth
  refine ⟨hst.2, ?_, ?_⟩
  · intro hd
    have h0 : (updateLastSendTime db1 (T + d) cmID (intervalOf minTimeBetweenTests)).2 = 0 := by
      have hlt : ¬ (T + 60 * second < T + d) := by omega
      rw [intervalOf_minTimeBetweenTests, hupd, if_neg hlt]
    refine ⟨?_, ?_⟩
    · intro hen
      unfold DB.SendContactMethodTest
      rw [hu]
      simp only [isDisabled_of_stamped db1 cmID T hst hen, h0]
      simp
    · unfold DB.SendContactMethodVerification
      rw [hu]
      simp only [h0]
      simp
  · intro hd
    have h1 : (updateLastSendTime db1 (T + d) cmID (intervalOf minTimeBetweenTests)).2 = 1 := by
      have hlt : T + 60 * second < T + d := by omega
      rw [intervalOf_minTimeBetweenTests, hupd, if_pos hlt]
    refine ⟨?_, ?_⟩
    · intro hen hfresh
      unfold DB.SendContactMethodTest
      rw [hu]
      simp only [isDisabled_of_stamped db1 cmID T hst hen, h1]
      have hrows : ((updateLastSendTime db1 (T + d) cmID
          (intervalOf minTimeBetweenTests)).1.user_contact_methods.filter
            (fun cm => decide (cm.id = cmID))).length = 1 := by
        rw [updateLastSendTime_filter_id]; exact hst.1
      obtain ⟨c, hc⟩ := List.length_eq_one.mp hrows
      have hout : (updateLastSendTime db1 (T + d) cmID
          (intervalOf minTimeBetweenTests)).1.outgoing_messages = db1.outgoing_messages := rfl
      have hany : db1.outgoing_messages.any (fun m => decide (m.id = vID2)) = false := by
        rw [List.any_eq_false]
        intro m hm
        simpa using hfresh m hm
      unfold insertTestNotification
      simp [hc, hout, hany]
    · intro hfresh
      unfold DB.SendContactMethodVerification
      rw [hu]
      simp only [h1]
      have hcodes : (updateLastSendTime db1 (T + d) cmID
          (intervalOf minTimeBetweenTests)).1.user_verification_codes =
            db1.user_verification_codes := rfl
      have hany : db1.user_verification_codes.any (fun v => decide (v.id = vcID2)) = false := by
        rw [List.any_eq_false]
        intro m hm
        simpa using hfresh m hm
      unfold setVerificationCode
      rw [hcodes, hany]
      by_cases hex : db1.user_verification_codes.any
          (fun v => decide (v.contact_method_id = cmID)) = true
      · simp [hex]
      · simp [hex]

/-- C2 (amended) applied to the example store: 61 seconds after the first test both operations
succeed. -/
theorem send_rate_limit_witness :
    uniqueContactMethodIDs enabledDB ∧
      (DB.SendContactMethodTest anyUUID testedDB callerA (1000 + 61 * second)
        "a0000000-0000-4000-8000-000000000002" cmA).1 = Except.ok () ∧
      (DB.SendContactMethodVerification anyUUID testedDB callerA (1000 + 61 * second)
        "a0000000-0000-4000-8000-000000000003" 0 cmA).1 = Except.ok () :=
  have h := send_rate_limit anyUUID enabledDB testedDB callerA callerA 1000 (61 * second)
    "a0000000-0000-4000-8000-000000000001" "" "a0000000-0000-4000-8000-000000000002"
    "a0000000-0000-4000-8000-000000000003" cmA 0 0 (by decide) (Or.inl (by decide))
    ⟨userA, by decide⟩
  ⟨by decide, (h.2.2 (by decide)).1 (by decide) (by decide), (h.2.2 (by decide)).2 (by decide)⟩

/-- C2 as stated fails at d = 60 seconds exactly: the first test succeeds at time 1000, the
waiting time equals minTimeBetweenTests, and the second test is still rate-limited. -/
theorem send_rate_limit_boundary_rejected :
    DB.SendContactMethodTest anyUUID enabledDB callerA 1000
        "a0000000-0000-4000-8000-000000000001" cmA = (Except.ok (), testedDB) ∧
      intervalOf minTimeBetweenTests ≤ 60 * second ∧
      DB.SendContactMethodTest anyUUID testedDB callerA (1000 + 60 * second)
        "a0000000-0000-4000-8000-000000000002" cmA =
        (Except.error (Error.FieldError "ContactMethod" "test message rate-limit exceeded"),
          testedDB) := by
  decide

/-! ## Verification of a contact method -/

theorem verify_join_some (codes : List VerificationCode) (cmID : String) (code : Int)
    (h : codes.filter (codeMatches cmID code) ≠ []) (x : String) :
    ((codes.filter (codeMatches cmID code)).map (fun r => r.contact_method_id)).any
      (fun i => decide (x = i)) = decide (x = cmID) := by
  by_cases hx : x = cmID
  · subst hx
    obtain ⟨r, hr⟩ := List.exists_mem_of_ne_nil _ h
    simp only [decide_True, List.any_eq_true, List.mem_map, decide_eq_true_eq]
    refine ⟨r.contact_method_id, ⟨r, hr, rfl⟩, ?_⟩
    rw [List.mem_filter] at hr
    unfold codeMatches at hr
    simp only [Bool.and_eq_true, decide_eq_true_eq] at hr
    exact hr.2.1.symm
  · simp only [hx, decide_False, List.any_eq_false, List.mem_map, decide_eq_true_eq]
    rintro i ⟨r, hr, rfl⟩ hxi
    rw [List.mem_filter] at hr
    unfold codeMatches at hr
    simp only [Bool.and_eq_true, decide_eq_true_eq] at hr
    exact hx (hxi.trans hr.2.1)

theorem verifyAndEnable_of_match (db : DB) (cmID : String) (code : Int)
    (h : db.user_verification_codes.filter (codeMatches cmID code) ≠ []) :
    verifyAndEnableContactMethod db cmID code =
      ({ db with
          user_verification_codes :=
            db.user_verification_codes.filter (fun r => !codeMatches cmID code r)
          user_contact_methods := db.user_contact_methods.map (fun cm =>
            if cm.id = cmID then { cm with disabled := false } else cm) },
        (db.user_contact_methods.filter (fun cm => decide (cm.id = cmID))).length) := by
  unfold verifyAndEnableContactMethod
  simp only [verify_join_some _ cmID code h, decide_eq_true_eq]

theorem verifyAndEnable_of_no_match (db : DB) (cmID : String) (code : Int)
    (h : db.user_verification_codes.filter (codeMatches cmID code) = []) :
    verifyAndEnableContactMethod db cmID code = (db, 0) := by
  unfold verifyAndEnableContactMethod
  have h2 : db.user_verification_codes.filter (fun r => !codeMatches cmID code r) =
      db.user_verification_codes := by
    rw [List.filter_eq_self]
    intro r hr
    rw [List.filter_eq_nil_iff] at h
    simpa using h r hr
  simp only [h, h2, List.map_nil, List.any_nil, Bool.false_eq_true, if_false, List.map_id',
    List.filter_false, List.length_nil]

theorem cmUserID_ok_exists (isUUID : String → Bool) (db : DB) (ctx : Context) (cmID u : String)
    (h : db.cmUserID isUUID ctx cmID = Except.ok u) :
    db.user_contact_methods.filter (fun cm => decide (cm.id = cmID)) ≠ [] := by
  unfold DB.cmUserID at h
  split at h
  · simp at h
  · split at h
    · simp at h
    · split at h
      · simp at h
      · rename_i hq
        intro hnil
        unfold queryRow getCMUserID at hq
        rw [hnil] at hq
        simp at hq

theorem VerifyContactMethod_ok (isUUID : String → Bool) (db db1 : DB) (ctx : Context)
    (cmID : String) (code : Int)
    (h : DB.VerifyContactMethod isUUID db ctx cmID code = (Except.ok (), db1)) :
    (verifyAndEnableContactMethod db cmID code).2 = 1 ∧
      db1 = (verifyAndEnableContactMethod db cmID code).1 := by
  unfold DB.VerifyContactMethod at h
  split at h
  · simp at h
  · dsimp only at h
    split at h
    · simp at h
    · rename_i hr
      simp only [Prod.mk.injEq, true_and] at h
      exact ⟨by simpa using hr, h.symm⟩

/-- C3: when contact_method_id is unique in the verification-code table and
VerifyContactMethod(cmID, code) returns no error, the resulting store has the contact method
cmID with disabled = false and no verification-code row for cmID; every other contact method,
every other verification-code row and every outgoing message is unchanged. -/
theorem VerifyContactMethod_success_state (isUUID : String → Bool) (db db1 : DB)
    (ctx : Context) (cmID : String) (code : Int)
    (huniq : uniqueCodePerContactMethod db)
    (h : DB.VerifyContactMethod isUUID db ctx cmID code = (Except.ok (), db1)) :
    (∃ cm ∈ db1.user_contact_methods, cm.id = cmID) ∧
    (∀ cm ∈ db1.user_contact_methods, cm.id = cmID → cm.disabled = false) ∧
    (∀ v ∈ db1.user_verification_codes, v.contact_method_id ≠ cmID) ∧
    db1.user_contact_methods = db.user_contact_methods.map (fun cm =>
      if cm.id = cmID then { cm with disabled := false } else cm) ∧
    db1.user_verification_codes =
      db.user_verification_codes.filter (fun v => decide (v.contact_method_id ≠ cmID)) ∧
    db1.outgoing_messages = db.outgoing_messages := by
  obtain ⟨hnum, hdb⟩ := VerifyContactMethod_ok isUUID db db1 ctx cmID code h
  have hmatch : db.user_verification_codes.filter (codeMatches cmID code) ≠ [] := by
    intro hnil
    rw [verifyAndEnable_of_no_match db cmID code hnil] at hnum
    simp at hnum
  rw [verifyAndEnable_of_match db cmID code hmatch] at hnum hdb
  simp only at hnum hdb
  obtain ⟨r0, hr0⟩ := List.exists_mem_of_ne_nil _ hmatch
  rw [List.mem_filter] at hr0
  have hr0m : r0.contact_method_id = cmID ∧ r0.code = code := by
    have := hr0.2
    unfold codeMatches at this
    simpa using this
  have hcodes : db.user_verification_codes.filter (fun r => !codeMatches cmID code r) =
      db.user_verification_codes.filter (fun v => decide (v.contact_method_id ≠ cmID)) := by
    apply List.filter_congr
    intro v hv
    by_cases hvid : v.contact_method_id = cmID
    · have hveq : v = r0 := by
        by_contra hne
        have hsym : Symmetric (fun a b : VerificationCode =>
            a.contact_method_id ≠ b.contact_method_id) := fun a b hab => hab.symm
        exact huniq.forall hsym hv hr0.1 hne (hvid.trans hr0m.1.symm)
      subst hveq
      simp [codeMatches, hr0m.1, hr0m.2]
    · simp [codeMatches, hvid]
  have hcm : db1.user_contact_methods = db.user_contact_methods.map (fun cm =>
      if cm.id = cmID then { cm with disabled := false } else cm) := by rw [hdb]
  have hvc : db1.user_verification_codes =
      db.user_verification_codes.filter (fun v => decide (v.contact_method_id ≠ cmID)) := by
    rw [hdb]; exact hcodes
  have hout : db1.outgoing_messages = db.outgoing_messages := by rw [hdb]
  refine ⟨?_, ?_, ?_, hcm, hvc, hout⟩
  · obtain ⟨c, hc⟩ := List.length_eq_one.mp hnum
    have hmem : c ∈ db.user_contact_methods.filter (fun cm => decide (cm.id = cmID)) := by
      rw [hc]; simp
    rw [List.mem_filter] at hmem
    have hcid : c.id = cmID := by simpa using hmem.2
    refine ⟨{ c with disabled := false }, ?_, hcid⟩
    rw [hcm, List.mem_map]
    exact ⟨c, hmem.1, by simp [hcid]⟩
  · intro cm hmem hid
    rw [hcm, List.mem_map] at hmem
    obtain ⟨c, _, rfl⟩ := hmem
    by_cases hc : c.id = cmID
    · simp [hc]
    · simp only [hc, if_false] at hid
  · intro v hv
    rw [hvc, List.mem_filter] at hv
    simpa using hv.2

/-- C3 applied to the example store holding one code for the disabled contact method. -/
theorem VerifyContactMethod_success_state_witness :
    uniqueCodePerContactMethod staleCodeDB ∧
      (∀ cm ∈ verifiedDB.user_contact_methods, cm.id = cmA → cm.disabled = false) ∧
      (∀ v ∈ verifiedDB.user_verification_codes, v.contact_method_id ≠ cmA) :=
  have h := VerifyContactMethod_success_state anyUUID staleCodeDB verifiedDB callerA cmA 123456
    (by decide) (by decide)
  ⟨by decide, h.2.1, h.2.2.1⟩

/-- C4: an authorized VerifyContactMethod(cmID, code) for which no verification-code row has
both that contact method and that code fails with FieldError "code" / "invalid code" and leaves
the whole store as it was: the disabled flag and every verification-code row are kept. -/
theorem VerifyContactMethod_wrong_code (isUUID : String → Bool) (db : DB) (ctx : Context)
    (cmID : String) (code : Int)
    (hauth : ∃ u, db.cmUserID isUUID ctx cmID = Except.ok u)
    (hno : ∀ v ∈ db.user_verification_codes, ¬ (v.contact_method_id = cmID ∧ v.code = code)) :
    DB.VerifyContactMethod isUUID db ctx cmID code =
      (Except.error (Error.FieldError "code" "invalid code"), db) := by
  obtain ⟨u, hu⟩ := hauth
  have hnil : db.user_verification_codes.filter (codeMatches cmID code) = [] := by
    rw [List.filter_eq_nil_iff]
    intro v hv
    have := hno v hv
    unfold codeMatches
    simpa using this
  unfold DB.VerifyContactMethod
  rw [hu]
  simp [verifyAndEnable_of_no_match db cmID code hnil]

/-- C4 applied to the example store with a code that differs from the stored one. -/
theorem VerifyContactMethod_wrong_code_witness :
    DB.VerifyContactMethod anyUUID staleCodeDB callerA cmA 123457 =
      (Except.error (Error.FieldError "code" "invalid code"), staleCodeDB) :=
  VerifyContactMethod_wrong_code anyUUID staleCodeDB callerA cmA 123457 ⟨userA, by decide⟩
    (by decide)

/-- C5 as stated fails: the stored code expired at time 500, the call is made at time 1000, and
VerifyContactMethod still returns no error, deletes the row and enables the contact method. -/
theorem VerifyContactMethod_accepts_expired_code :
    staleCode ∈ staleCodeDB.user_verification_codes ∧ staleCode.expires_at ≤ 1000 ∧
      DB.VerifyContactMethod anyUUID staleCodeDB callerA cmA staleCode.code =
        (Except.ok (), verifiedDB) := by
  decide

/-- C5 (amended): the verify statement does not consult expires_at.  For every
verification-code row with the given contact method and code, also one whose expires_at is not
later than the time `now` of the call, an authorized VerifyContactMethod on a store with unique
contact-method ids returns no error, deletes the row and sets disabled = false. -/
theorem VerifyContactMethod_ignores_expiry (isUUID : String → Bool) (db : DB) (ctx : Context)
    (cmID : String) (code : Int) (now : Time) (r : VerificationCode)
    (hpk : uniqueContactMethodIDs db)
    (hauth : ∃ u, db.cmUserID isUUID ctx cmID = Except.ok u)
    (hr : r ∈ db.user_verification_codes) (hcm : r.contact_method_id = cmID)
    (hcode : r.code = code) (_hexp : r.expires_at ≤ now) :
    (DB.VerifyContactMethod isUUID db ctx cmID code).1 = Except.ok () ∧
      r ∉ (DB.VerifyContactMethod isUUID db ctx cmID code).2.user_verification_codes ∧
      ∀ cm ∈ (DB.VerifyContactMethod isUUID db ctx cmID code).2.user_contact_methods,
        cm.id = cmID → cm.disabled = false := by
  obtain ⟨u, hu⟩ := hauth
  have hrm : codeMatches cmID code r = true := by
    unfold codeMatches; simp [hcm, hcode]
  have hmatch : db.user_verification_codes.filter (codeMatches cmID code) ≠ [] := by
    intro hnil
    rw [List.filter_eq_nil_iff] at hnil
    exact hnil r hr hrm
  have hone : (db.user_contact_methods.filter (fun cm => decide (cm.id = cmID))).length = 1 := by
    have hle := filter_id_length_le_one db.user_contact_methods cmID hpk
    have hne := cmUserID_ok_exists isUUID db ctx cmID u hu
    have : (db.user_contact_methods.filter (fun cm => decide (cm.id = cmID))).length ≠ 0 := by
      rw [Ne, List.length_eq_zero]; exact hne
    omega
  have hv : DB.VerifyContactMethod isUUID db ctx cmID code =
      (Except.ok (), (verifyAndEnableContactMethod db cmID code).1) := by
    unfold DB.VerifyContactMethod
    rw [hu]
    simp [verifyAndEnable_of_match db cmID code hmatch, hone]
  rw [hv, verifyAndEnable_of_match db cmID code hmatch]
  refine ⟨rfl, ?_, ?_⟩
  · simp only [List.mem_filter, not_and]
    intro _
    simp [hrm]
  · intro cm hmem hid
    simp only [List.mem_map] at hmem
    obtain ⟨c, _, rfl⟩ := hmem
    by_cases hc : c.id = cmID
    · simp [hc]
    · simp only [hc, if_false] at hid

/-- C5 (amended) applied to the example store, whose only code expired before the call. -/
theorem VerifyContactMethod_ignores_expiry_witness :
    staleCode.expires_at ≤ 1000 ∧
      (DB.VerifyContactMethod anyUUID staleCodeDB callerA cmA 123456).1 = Except.ok () :=
  ⟨by decide,
    (VerifyContactMethod_ignores_expiry anyUUID staleCodeDB callerA cmA 123456 1000 staleCode
      (by decide) ⟨userA, by decide⟩ (by decide) (by decide) (by decide) (by decide)).1⟩

/-! ## Status lookups -/

theorem messageStateFromStatus_known (lastStatus : String) (hasNextRetry : Bool)
    (h : lastStatus ∈ knownStatuses) :
    ∃ st, messageStateFromStatus lastStatus hasNextRetry = Except.ok st := by
  unfold knownStatuses at h
  simp only [List.mem_cons, List.mem_singleton, List.not_mem_nil, or_false] at h
  rcases h with h | h | h | h | h | h | h <;> subst h <;> cases hasNextRetry <;>
    exact ⟨_, rfl⟩

theorem scanStatus_some (m : OutgoingMessage) (h : m.last_status ∈ knownStatuses) :
    ∃ r, projects m r ∧ scanStatus (some m.statusRow) = Except.ok (some r, m.created_at) := by
  obtain ⟨st, hst⟩ := messageStateFromStatus_known m.last_status m.next_retry_at.isSome h
  refine ⟨{ ID := m.id, State := st, Details := m.status_details,
            ProviderMessageID := m.provider_msg_id, Sequence := m.provider_seq }, ?_, ?_⟩
  · exact ⟨rfl, rfl, rfl, rfl, hst⟩
  · unfold scanStatus
    simp only [OutgoingMessage.statusRow]
    rw [hst]

theorem sqlEq_some (uuidValue : String → Option String) (col : Option String) (a v : String)
    (h : uuidValue a = some v) : sqlEq uuidValue col (some a) = decide (col = some v) := by
  cases col <;> simp [sqlEq, h]

theorem sqlEq_none (uuidValue : String → Option String) (col : Option String) :
    sqlEq uuidValue col none = false := by
  cases col <;> simp [sqlEq]

theorem head_insertionSort_bySentAt (l : List OutgoingMessage) (m : OutgoingMessage)
    (h : (l.insertionSort bySentAt).head? = some m) :
    m ∈ l ∧ ∀ x ∈ l, bySentAt m x := by
  have hs := List.sorted_insertionSort bySentAt l
  have hp := List.perm_insertionSort bySentAt l
  cases hsl : l.insertionSort bySentAt with
  | nil => rw [hsl] at h; simp at h
  | cons a t =>
    rw [hsl] at h hs hp
    simp only [List.head?_cons, Option.some.injEq] at h
    subst h
    refine ⟨hp.subset (List.mem_cons_self _ _), ?_⟩
    intro x hx
    have hx2 : x ∈ a :: t := hp.symm.subset hx
    rcases List.mem_cons.mp hx2 with rfl | hxt
    · exact (IsTotal.total x x).elim id id
    · exact List.rel_of_sorted_cons hs x hxt

theorem origAlertMessage_eq (uuidValue : String → Option String) (db : DB) (alertID : Int)
    (dst : Dest) (huuid : (uuidValue dst.ID).isSome = true) :
    queryRow (origAlertMessage uuidValue db alertID
        (if dst.Type_.IsUserCM = true then some dst.ID else none)
        (if dst.Type_.IsUserCM = true then none else some dst.ID)) =
      (((db.outgoing_messages.filter (isAlertNotificationFor uuidValue alertID
        dst)).insertionSort bySentAt).head?).map OutgoingMessage.statusRow := by
  unfold queryRow origAlertMessage
  obtain ⟨v, hv⟩ := Option.isSome_iff_exists.mp huuid
  have hf : db.outgoing_messages.filter (fun m =>
      decide (m.message_type = MessageType.alert_notification) &&
      decide (m.alert_id = some alertID) &&
      (sqlEq uuidValue m.contact_method_id
          (if dst.Type_.IsUserCM = true then some dst.ID else none) ||
        sqlEq uuidValue m.channel_id
          (if dst.Type_.IsUserCM = true then none else some dst.ID))) =
      db.outgoing_messages.filter (isAlertNotificationFor uuidValue alertID dst) := by
    apply List.filter_congr
    intro m _
    unfold isAlertNotificationFor
    by_cases hcm : dst.Type_.IsUserCM = true
    · simp [hcm, sqlEq_some uuidValue _ dst.ID v hv, sqlEq_none, hv]
    · simp [hcm, sqlEq_some uuidValue _ dst.ID v hv, sqlEq_none, hv]
  rw [hf]
  cases (db.outgoing_messages.filter (isAlertNotificationFor uuidValue alertID
    dst)).insertionSort bySentAt <;> simp

/-- C7: called as system with a destination whose ID is a valid UUID, on a table of known
statuses, OriginalMessageStatus returns nil without error when no alert notification of the
alert for the destination exists; otherwise it returns the projection of such a row whose
sent_at is the smallest: no notification of the alert for the destination has an earlier
sent_at, and the returned row has a sent_at whenever one of them has.  The destination column
is compared with Dest.ID as uuid values, whatever text form the ID has. -/
theorem OriginalMessageStatus_earliest (uuidValue : String → Option String) (db : DB)
    (ctx : Context) (alertID : Int) (dst : Dest)
    (hsys : ctx.system = true) (huuid : (uuidValue dst.ID).isSome = true)
    (hknown : knownStatusesOnly db) :
    ((∀ m ∈ db.outgoing_messages, isAlertNotificationFor uuidValue alertID dst m = false) →
      DB.OriginalMessageStatus uuidValue db ctx alertID dst = Except.ok none) ∧
    ((∃ m ∈ db.outgoing_messages, isAlertNotificationFor uuidValue alertID dst m = true) →
      ∃ m ∈ db.outgoing_messages, ∃ r,
        isAlertNotificationFor uuidValue alertID dst m = true ∧
        (∀ x ∈ db.outgoing_messages, isAlertNotificationFor uuidValue alertID dst x = true →
          ∀ tx, x.sent_at = some tx → ∃ t, m.sent_at = some t ∧ t ≤ tx) ∧
        projects m r ∧
        DB.OriginalMessageStatus uuidValue db ctx alertID dst = Except.ok (some r)) := by
  have hcall : DB.OriginalMessageStatus uuidValue db ctx alertID dst =
      match scanStatus ((((db.outgoing_messages.filter
          (isAlertNotificationFor uuidValue alertID dst)).insertionSort bySentAt).head?).map
            OutgoingMessage.statusRow) with
      | Except.error e => Except.error e
      | Except.ok (s, _) => Except.ok s := by
    unfold DB.OriginalMessageStatus
    simp only [permission.LimitCheckAny, permission.System, hsys, List.any_cons, List.any_nil,
      Bool.or_false, if_true, validate.UUID, huuid]
    rw [origAlertMessage_eq uuidValue db alertID dst huuid]
  refine ⟨?_, ?_⟩
  · intro hnone
    have hnil : db.outgoing_messages.filter
        (isAlertNotificationFor uuidValue alertID dst) = [] := by
      rw [List.filter_eq_nil_iff]
      intro m hm
      simp [hnone m hm]
    rw [hcall, hnil]
    rfl
  · rintro ⟨m0, hm0, hm0f⟩
    have hne : (db.outgoing_messages.filter
        (isAlertNotificationFor uuidValue alertID dst)).insertionSort bySentAt ≠ [] := by
      intro hnil
      have hp := List.perm_insertionSort bySentAt
        (db.outgoing_messages.filter (isAlertNotificationFor uuidValue alertID dst))
      rw [hnil] at hp
      have := hp.symm.subset (List.mem_filter.mpr ⟨hm0, hm0f⟩)
      simp at this
    obtain ⟨m, hm⟩ : ∃ m, ((db.outgoing_messages.filter
        (isAlertNotificationFor uuidValue alertID dst)).insertionSort bySentAt).head? = some m := by
      cases hsl : (db.outgoing_messages.filter
        (isAlertNotificationFor uuidValue alertID dst)).insertionSort bySentAt with
      | nil => exact absurd hsl hne
      | cons a t => exact ⟨a, rfl⟩
    obtain ⟨hmem, hmin⟩ := head_insertionSort_bySentAt _ m hm
    rw [List.mem_filter] at hmem
    obtain ⟨r, hproj, hscan⟩ := scanStatus_some m (hknown m hmem.1)
    refine ⟨m, hmem.1, r, hmem.2, ?_, hproj, ?_⟩
    · intro x hx hxf tx htx
      have hle := hmin x (List.mem_filter.mpr ⟨hx, hxf⟩)
      unfold bySentAt sentAtLE at hle
      rw [htx] at hle
      cases hms : m.sent_at with
      | none => rw [hms] at hle; simp at hle
      | some t => rw [hms] at hle; exact ⟨t, rfl, hle⟩
    · rw [hcall, hm]
      simp only [Option.map_some']
      rw [hscan]

/-- C7 applied to the example store, with the destination given in upper case: of the two
notifications of alert 42 the one sent at 3000 is returned, although the one sent at 7000 comes
first in the table. -/
theorem OriginalMessageStatus_earliest_witness :
    knownStatusesOnly twoAlertsDB ∧
      DB.OriginalMessageStatus readUUID twoAlertsDB callerSystem 42 destUpperA =
        Except.ok (some
          { ID := "b0000000-0000-4000-8000-000000000001", State := State.StateSent,
            Details := "", ProviderMessageID := none, Sequence := 1 }) ∧
      ∃ m ∈ twoAlertsDB.outgoing_messages, ∃ r,
        isAlertNotificationFor readUUID 42 destUpperA m = true ∧
        (∀ x ∈ twoAlertsDB.outgoing_messages,
          isAlertNotificationFor readUUID 42 destUpperA x = true →
          ∀ tx, x.sent_at = some tx → ∃ t, m.sent_at = some t ∧ t ≤ tx) ∧
        projects m r ∧
        DB.OriginalMessageStatus readUUID twoAlertsDB callerSystem 42 destUpperA
          = Except.ok (some r) :=
  ⟨by decide, by decide,
    (OriginalMessageStatus_earliest readUUID twoAlertsDB callerSystem 42
      destUpperA (by decide) (by decide) (by decide)).2
      ⟨alertNote "b0000000-0000-4000-8000-000000000001" 3000, by decide, by decide⟩⟩

/-- C6 fails on the code: both test notifications of the contact method qualify and the one
created at 5000 is the most recent, yet LastMessageStatus returns the one created at 1000,
the first row the scan yields, because the statement has no ordering. -/
theorem LastMessageStatus_returns_first_scanned :
    knownStatusesOnly twoTestsDB ∧ olderTest.sent_at = some 1100 ∧
      newerTest.sent_at = some 5100 ∧
      lastMessageStatus twoTestsDB MessageType.test_notification cmA 0 =
        [olderTest.statusRow, newerTest.statusRow] ∧
      DB.LastMessageStatus anyUUID twoTestsDB callerA MessageType.test_notification cmA 0 =
        Except.ok (some
          { ID := olderTest.id, State := State.StateDelivered, Details := "first",
            ProviderMessageID := some "sms:1", Sequence := 2 }, 1000) := by
  decide

/-! ## Bulk status lookup -/

theorem filter_key_length_le_one {α : Type} (key : α → String) (l : List α) (k : String)
    (h : l.Pairwise (fun a b => key a ≠ key b)) :
    (l.filter (fun a => decide (key a = k))).length ≤ 1 := by
  induction l with
  | nil => simp
  | cons a t ih =>
    rw [List.pairwise_cons] at h
    by_cases ha : key a = k
    · have hnil : t.filter (fun b => decide (key b = k)) = [] := by
        rw [List.filter_eq_nil_iff]
        intro b hb
        simp only [decide_eq_true_eq]
        intro hbk
        exact h.1 b hb (ha.trans hbk.symm)
      simp [List.filter_cons, ha, hnil]
    · simpa [List.filter_cons, ha] using ih h.2

theorem scanAll_projects (rows : List OutgoingMessage)
    (h : ∀ m ∈ rows, m.last_status ∈ knownStatuses) :
    ∃ res, scanAll (rows.map OutgoingMessage.statusRow) = Except.ok res ∧
      List.Forall₂ projects rows res := by
  induction rows with
  | nil => exact ⟨[], rfl, List.Forall₂.nil⟩
  | cons m t ih =>
    obtain ⟨res, hres, hall⟩ := ih (fun x hx => h x (List.mem_cons_of_mem _ hx))
    obtain ⟨st, hst⟩ := messageStateFromStatus_known m.last_status m.next_retry_at.isSome
      (h m (List.mem_cons_self _ _))
    refine ⟨{ ID := m.id, State := st, Details := m.status_details,
              ProviderMessageID := m.provider_msg_id, Sequence := m.provider_seq } :: res,
      ?_, List.Forall₂.cons ⟨rfl, rfl, rfl, rfl, hst⟩ hall⟩
    simp only [List.map_cons, scanAll, OutgoingMessage.statusRow]
    rw [hst]
    rw [hres]

theorem projects_count (rows : List OutgoingMessage) (res : List SendResult) (id : String)
    (h : List.Forall₂ projects rows res) :
    (res.filter (fun r => decide (r.ID = id))).length =
      (rows.filter (fun m => decide (m.id = id))).length := by
  induction h with
  | nil => rfl
  | cons hp _ ih =>
    simp only [List.filter_cons, hp.1]
    split <;> simp [ih]

theorem findManyMessageStatuses_requested (uuidValue : String → Option String) (db : DB)
    (ids : List String) :
    db.outgoing_messages.filter (fun m => decide (m.id ∈ ids.filterMap uuidValue)) =
      db.outgoing_messages.filter (isRequested uuidValue ids) := by
  apply List.filter_congr
  intro m _
  unfold isRequested
  rw [Bool.eq_iff_iff]
  simp only [decide_eq_true_eq, List.mem_filterMap, List.any_eq_true]

/-- C8: for a table with unique ids and known statuses and a non-empty list of at most
MaxResults valid UUIDs, FindManyMessageStatuses called by an authenticated user returns, row by
row, the projection of exactly the table rows whose id occurs in the list (id, status_details,
provider_msg_id, provider_seq, and State computed by messageStateFromStatus from last_status
and next_retry_at being non-null); so each requested id that is in the table has exactly one
result and every other id has none.  Ids are compared as uuid values, whatever text form the
listed ids have. -/
theorem FindManyMessageStatuses_one_per_row (uuidValue : String → Option String)
    (MaxResults : Nat) (db : DB) (ctx : Context) (ids : List String)
    (huser : ctx.user = true) (hne : ids ≠ []) (hlen : ids.length ≤ MaxResults)
    (hvalid : ∀ id ∈ ids, (uuidValue id).isSome = true) (hknown : knownStatusesOnly db)
    (hpk : uniqueMessageIDs db) :
    ∃ res, DB.FindManyMessageStatuses uuidValue MaxResults db ctx ids = Except.ok res ∧
      List.Forall₂ projects (db.outgoing_messages.filter (isRequested uuidValue ids)) res ∧
      ∀ id, (res.filter (fun r => decide (r.ID = id))).length =
        if (∃ t ∈ ids, uuidValue t = some id) ∧ ∃ m ∈ db.outgoing_messages, m.id = id then 1
        else 0 := by
  obtain ⟨res, hres, hall⟩ := scanAll_projects
    (db.outgoing_messages.filter (isRequested uuidValue ids))
    (fun m hm => hknown m (List.mem_filter.mp hm).1)
  refine ⟨res, ?_, hall, ?_⟩
  · unfold DB.FindManyMessageStatuses
    have hl : ids.length ≠ 0 := by
      rw [Ne, List.length_eq_zero]; exact hne
    have hallv : ids.all (fun s => (uuidValue s).isSome) = true := by
      rw [List.all_eq_true]; exact hvalid
    simp only [permission.LimitCheckAny, permission.User, huser, List.any_cons, List.any_nil,
      Bool.or_false, if_true, hl, if_false, validate.ManyUUID, not_lt.mpr hlen, hallv]
    unfold findManyMessageStatuses
    rw [findManyMessageStatuses_requested]
    exact hres
  · intro id
    rw [projects_count _ res id hall, List.filter_filter]
    by_cases hid : ∃ t ∈ ids, uuidValue t = some id
    · have hf : db.outgoing_messages.filter
          (fun m => decide (m.id = id) && isRequested uuidValue ids m) =
          db.outgoing_messages.filter (fun m => decide (m.id = id)) := by
        apply List.filter_congr
        intro m _
        by_cases hm : m.id = id
        · obtain ⟨t, ht, htv⟩ := hid
          have : isRequested uuidValue ids m = true := by
            unfold isRequested
            rw [List.any_eq_true]
            exact ⟨t, ht, by simp [htv, hm]⟩
          simp only [this, hm, decide_True, Bool.and_self]
        · simp [hm]
      rw [hf]
      have hle : (db.outgoing_messages.filter (fun m => decide (m.id = id))).length ≤ 1 :=
        filter_key_length_le_one (fun m : OutgoingMessage => m.id) db.outgoing_messages id hpk
      by_cases hex : ∃ m ∈ db.outgoing_messages, m.id = id
      · rw [if_pos ⟨hid, hex⟩]
        obtain ⟨m, hm, hmid⟩ := hex
        have hmem : m ∈ db.outgoing_messages.filter (fun m => decide (m.id = id)) :=
          List.mem_filter.mpr ⟨hm, by simpa using hmid⟩
        have := List.length_pos_of_mem hmem
        omega
      · rw [if_neg (fun h => hex h.2), List.length_eq_zero, List.filter_eq_nil_iff]
        intro m hm
        simp only [decide_eq_true_eq]
        exact fun hmid => hex ⟨m, hm, hmid⟩
    · rw [if_neg (fun h => hid h.1), List.length_eq_zero, List.filter_eq_nil_iff]
      intro m _
      simp only [Bool.and_eq_true, decide_eq_true_eq, not_and]
      intro hmid hreq
      apply hid
      unfold isRequested at hreq
      rw [List.any_eq_true] at hreq
      obtain ⟨t, ht, htv⟩ := hreq
      exact ⟨t, ht, by rw [← hmid]; simpa using htv⟩

/-- C8 applied to the example table: of the two requested ids the first is the upper-case
text of a stored id and the second is not stored; exactly the row of the first comes back. -/
theorem FindManyMessageStatuses_one_per_row_witness :
    uniqueMessageIDs twoTestsDB ∧
      DB.FindManyMessageStatuses readUUID 50 twoTestsDB callerA requestedIDs =
        Except.ok
          [{ ID := newerTest.id, State := State.StateSent, Details := "second",
             ProviderMessageID := some "sms:2", Sequence := 1 }] ∧
      ∃ res, DB.FindManyMessageStatuses readUUID 50 twoTestsDB callerA requestedIDs =
          Except.ok res ∧
        List.Forall₂ projects
          (twoTestsDB.outgoing_messages.filter (isRequested readUUID requestedIDs)) res ∧
        ∀ id, (res.filter (fun r => decide (r.ID = id))).length =
          if (∃ t ∈ requestedIDs, readUUID t = some id) ∧
            ∃ m ∈ twoTestsDB.outgoing_messages, m.id = id then 1 else 0 :=
  ⟨by decide, by decide,
    FindManyMessageStatuses_one_per_row readUUID 50 twoTestsDB callerA requestedIDs
      (by decide) (by decide) (by decide) (by decide) (by decide) (by decide)⟩

/-! ## Requesting a verification code and testing a disabled contact method -/

theorem SendContactMethodVerification_ok_code (isUUID : String → Bool) (db db1 : DB)
    (ctx : Context) (T : Time) (vcID : String) (rnd : Fin 900000) (cmID : String)
    (h : DB.SendContactMethodVerification isUUID db ctx T vcID rnd cmID = (Except.ok (), db1)) :
    setVerificationCode (updateLastSendTime db T cmID (intervalOf minTimeBetweenTests)).1 T
      vcID cmID ((rnd.val : Int) + 100000) = Except.ok db1 := by
  unfold DB.SendContactMethodVerification at h
  split at h
  · simp at h
  · dsimp only at h
    split at h
    · simp at h
    · split at h
      · simp at h
      · rename_i db2 hins
        simp only [Prod.mk.injEq, true_and] at h
        rw [← h]; exact hins

/-- C9: on a store with at most one verification-code row per contact method and every stored
code in [100000, 999999], a successful SendContactMethodVerification(cmID) at time `now` leaves
exactly one verification-code row for cmID; its code lies in [100000, 999999], it is unsent and
expires at now + 15 minutes; it keeps the code and id of the row that already existed, and
carries the generated code rand.Intn(900000) + 100000 and the new id when there was none; the
rows of every other contact method are unchanged. -/
theorem SendContactMethodVerification_code_row (isUUID : String → Bool) (db db1 : DB)
    (ctx : Context) (now : Time) (vcID : String) (rnd : Fin 900000) (cmID : String)
    (huniq : uniqueCodePerContactMethod db)
    (hrange : ∀ v ∈ db.user_verification_codes, 100000 ≤ v.code ∧ v.code ≤ 999999)
    (h : DB.SendContactMethodVerification isUUID db ctx now vcID rnd cmID =
      (Except.ok (), db1)) :
    ∃ row, db1.user_verification_codes.filter (fun v => decide (v.contact_method_id = cmID))
        = [row] ∧
      100000 ≤ row.code ∧ row.code ≤ 999999 ∧ row.sent = false ∧
      row.expires_at = now + 15 * 60 * second ∧
      (∀ old ∈ db.user_verification_codes, old.contact_method_id = cmID →
        row.code = old.code ∧ row.id = old.id) ∧
      ((∀ old ∈ db.user_verification_codes, old.contact_method_id ≠ cmID) →
        row.code = (rnd.val : Int) + 100000 ∧ row.id = vcID) ∧
      db1.user_verification_codes.filter (fun v => decide (v.contact_method_id ≠ cmID)) =
        db.user_verification_codes.filter (fun v => decide (v.contact_method_id ≠ cmID)) := by
  have hset := SendContactMethodVerification_ok_code isUUID db db1 ctx now vcID rnd cmID h
  unfold setVerificationCode at hset
  have hcodes : (updateLastSendTime db now cmID
      (intervalOf minTimeBetweenTests)).1.user_verification_codes =
        db.user_verification_codes := rfl
  rw [hcodes] at hset
  have hrnd : (rnd.val : Int) < 900000 := by exact_mod_cast rnd.isLt
  have hrnd0 : (0 : Int) ≤ (rnd.val : Int) := Int.natCast_nonneg _
  split at hset
  · rename_i hany
    simp only [Except.ok.injEq] at hset
    have hle : (db.user_verification_codes.filter
        (fun v => decide (v.contact_method_id = cmID))).length ≤ 1 :=
      filter_key_length_le_one (fun v : VerificationCode => v.contact_method_id)
        db.user_verification_codes cmID huniq
    rw [List.any_eq_true] at hany
    obtain ⟨old, hold, holdid⟩ := hany
    have holdmem : old ∈ db.user_verification_codes.filter
        (fun v => decide (v.contact_method_id = cmID)) := List.mem_filter.mpr ⟨hold, holdid⟩
    have hlen : (db.user_verification_codes.filter
        (fun v => decide (v.contact_method_id = cmID))).length = 1 := by
      have := List.length_pos_of_mem holdmem
      omega
    obtain ⟨o, ho⟩ := List.length_eq_one.mp hlen
    have hoold : old = o := by rw [ho] at holdmem; simpa using holdmem
    subst hoold
    have holdcm : old.contact_method_id = cmID := by simpa using holdid
    have hdb1 : db1.user_verification_codes = db.user_verification_codes.map (fun v =>
        if v.contact_method_id = cmID then
          { v with sent := false, expires_at := now + fifteenMinutes }
        else v) := by rw [← hset]
    refine ⟨{ old with sent := false, expires_at := now + fifteenMinutes }, ?_,
      (hrange old hold).1, (hrange old hold).2, rfl, rfl, ?_, ?_, ?_⟩
    · rw [hdb1, List.filter_map]
      have hf : db.user_verification_codes.filter
          ((fun v => decide (v.contact_method_id = cmID)) ∘ (fun v : VerificationCode =>
            if v.contact_method_id = cmID then
              { v with sent := false, expires_at := now + fifteenMinutes }
            else v)) =
          db.user_verification_codes.filter (fun v => decide (v.contact_method_id = cmID)) := by
        apply List.filter_congr
        intro v _
        simp only [Function.comp]
        split <;> simp_all
      rw [hf, ho]
      simp [holdcm]
    · intro x hx hxcm
      have hxmem : x ∈ db.user_verification_codes.filter
          (fun v => decide (v.contact_method_id = cmID)) :=
        List.mem_filter.mpr ⟨hx, by simpa using hxcm⟩
      rw [ho] at hxmem
      have : x = old := by simpa using hxmem
      subst this
      exact ⟨rfl, rfl⟩
    · intro hnone
      exact absurd holdcm (hnone old hold)
    · rw [hdb1, List.filter_map]
      have hf : db.user_verification_codes.filter
          ((fun v => decide (v.contact_method_id ≠ cmID)) ∘ (fun v : VerificationCode =>
            if v.contact_method_id = cmID then
              { v with sent := false, expires_at := now + fifteenMinutes }
            else v)) =
          db.user_verification_codes.filter (fun v => decide (v.contact_method_id ≠ cmID)) := by
        apply List.filter_congr
        intro v _
        simp only [Function.comp]
        split <;> simp_all
      rw [hf]
      conv_rhs => rw [← List.map_id (db.user_verification_codes.filter
        (fun v => decide (v.contact_method_id ≠ cmID)))]
      apply List.map_congr_left
      intro v hv
      have hvcm := (List.mem_filter.mp hv).2
      simp only [ne_eq, decide_not, Bool.not_eq_true', decide_eq_false_iff_not] at hvcm
      simp [hvcm]
  · rename_i hany
    have hnone : ∀ v ∈ db.user_verification_codes, v.contact_method_id ≠ cmID := by
      intro v hv hvcm
      apply hany
      rw [List.any_eq_true]
      exact ⟨v, hv, by simpa using hvcm⟩
    split at hset
    · simp at hset
    · simp only [Except.ok.injEq] at hset
      have hdb1 : db1.user_verification_codes = db.user_verification_codes ++
          [{ id := vcID, contact_method_id := cmID, code := (rnd.val : Int) + 100000,
             expires_at := now + fifteenMinutes, sent := false }] := by rw [← hset]
      have hnil : db.user_verification_codes.filter
          (fun v => decide (v.contact_method_id = cmID)) = [] := by
        rw [List.filter_eq_nil_iff]
        intro v hv
        simpa using hnone v hv
      refine ⟨{ id := vcID, contact_method_id := cmID, code := (rnd.val : Int) + 100000,
                expires_at := now + fifteenMinutes, sent := false }, ?_, ?_, ?_, rfl, rfl,
        ?_, ?_, ?_⟩
      · rw [hdb1, List.filter_append, hnil]
        simp
      · show (100000 : Int) ≤ (rnd.val : Int) + 100000
        omega
      · show (rnd.val : Int) + 100000 ≤ 999999
        omega
      · intro old hold holdcm
        exact absurd holdcm (hnone old hold)
      · intro _
        exact ⟨rfl, rfl⟩
      · rw [hdb1, List.filter_append]
        simp

/-- C9 applied to the example store, where the contact method already has a code row. -/
theorem SendContactMethodVerification_code_row_witness :
    uniqueCodePerContactMethod staleCodeDB ∧
      ∃ row, resentDB.user_verification_codes.filter
          (fun v => decide (v.contact_method_id = cmA)) = [row] ∧
        100000 ≤ row.code ∧ row.code ≤ 999999 ∧ row.sent = false ∧
        row.expires_at = 2000 + 15 * 60 * second ∧
        (∀ old ∈ staleCodeDB.user_verification_codes, old.contact_method_id = cmA →
          row.code = old.code ∧ row.id = old.id) ∧
        ((∀ old ∈ staleCodeDB.user_verification_codes, old.contact_method_id ≠ cmA) →
          row.code = ((77 : Fin 900000).val : Int) + 100000 ∧
            row.id = "c0000000-0000-4000-8000-000000000002") ∧
        resentDB.user_verification_codes.filter
            (fun v => decide (v.contact_method_id ≠ cmA)) =
          staleCodeDB.user_verification_codes.filter
            (fun v => decide (v.contact_method_id ≠ cmA)) :=
  ⟨by decide,
    SendContactMethodVerification_code_row anyUUID staleCodeDB resentDB callerA 2000
      "c0000000-0000-4000-8000-000000000002" 77 cmA (by decide) (by decide) (by decide)⟩

/-- C10: an authorized SendContactMethodTest on a contact method whose disabled flag is true
fails with FieldError "ContactMethod" / "contact method disabled" and leaves the whole store as
it was: no outgoing message is inserted and last_test_verify_at keeps its value. -/
theorem SendContactMethodTest_disabled (isUUID : String → Bool) (db : DB) (ctx : Context)
    (now : Time) (vID cmID : String)
    (hauth : ∃ u, db.cmUserID isUUID ctx cmID = Except.ok u)
    (hdis : ∀ cm ∈ db.user_contact_methods, cm.id = cmID → cm.disabled = true) :
    DB.SendContactMethodTest isUUID db ctx now vID cmID =
      (Except.error (Error.FieldError "ContactMethod" "contact method disabled"), db) := by
  obtain ⟨u, hu⟩ := hauth
  have hne := cmUserID_ok_exists isUUID db ctx cmID u hu
  have hq : queryRow (isDisabled db cmID) = some true := by
    unfold queryRow isDisabled
    obtain ⟨c, hc⟩ := List.exists_mem_of_ne_nil _ hne
    cases hl : db.user_contact_methods.filter (fun cm => decide (cm.id = cmID)) with
    | nil => exact absurd hl hne
    | cons a t =>
      have ha : a ∈ db.user_contact_methods.filter (fun cm => decide (cm.id = cmID)) := by
        rw [hl]; exact List.mem_cons_self _ _
      rw [List.mem_filter] at ha
      simp [hdis a ha.1 (by simpa using ha.2)]
  unfold DB.SendContactMethodTest
  rw [hu]
  simp only [hq]

/-- C10 applied to the example store with the disabled contact method. -/
theorem SendContactMethodTest_disabled_witness :
    DB.SendContactMethodTest anyUUID staleCodeDB callerA 2000
        "a0000000-0000-4000-8000-000000000009" cmA =
      (Except.error (Error.FieldError "ContactMethod" "contact method disabled"),
        staleCodeDB) :=
  SendContactMethodTest_disabled anyUUID staleCodeDB callerA 2000
    "a0000000-0000-4000-8000-000000000009" cmA ⟨userA, by decide⟩ (by decide)

/-! ## Ownership check -/

theorem getCMUserID_owner (db : DB) (cmID u : String)
    (hex : ∃ cm ∈ db.user_contact_methods, cm.id = cmID)
    (hown : ∀ cm ∈ db.user_contact_methods, cm.id = cmID → cm.user_id = u) :
    queryRow (getCMUserID db cmID) = some u := by
  unfold queryRow getCMUserID
  obtain ⟨c, hc, hcid⟩ := hex
  cases hl : db.user_contact_methods.filter (fun cm => decide (cm.id = cmID)) with
  | nil =>
    have : c ∈ db.user_contact_methods.filter (fun cm => decide (cm.id = cmID)) :=
      List.mem_filter.mpr ⟨hc, by simpa using hcid⟩
    rw [hl] at this
    simp at this
  | cons a t =>
    have ha : a ∈ db.user_contact_methods.filter (fun cm => decide (cm.id = cmID)) := by
      rw [hl]; exact List.mem_cons_self _ _
    rw [List.mem_filter] at ha
    simp [hown a ha.1 (by simpa using ha.2)]

theorem cmUserID_denied (isUUID : String → Bool) (db : DB) (ctx : Context) (cmID u : String)
    (huuid : isUUID cmID = true)
    (hex : ∃ cm ∈ db.user_contact_methods, cm.id = cmID)
    (hown : ∀ cm ∈ db.user_contact_methods, cm.id = cmID → cm.user_id = u)
    (huser : ctx.user = true) (hadmin : ctx.admin = false) (hother : ctx.userID ≠ u) :
    db.cmUserID isUUID ctx cmID = Except.error Error.PermissionDenied := by
  unfold DB.cmUserID
  simp [permission.LimitCheckAny, permission.User, permission.Admin, permission.MatchUser,
    validate.UUID, huuid, huser, hadmin, hother, getCMUserID_owner db cmID u hex hown]

/-- C11: for an existing contact method cmID (a valid UUID) owned by user u, a caller that is
an authenticated user other than u and does not hold admin gets a permission error from each
of SendContactMethodTest, SendContactMethodVerification and VerifyContactMethod, and the three
tables are left as they were; for a caller that is u or holds admin the ownership check
`cmUserID` passes and yields u. -/
theorem contact_method_ownership (isUUID : String → Bool) (db : DB) (ctx : Context)
    (cmID u : String) (now : Time) (vID vcID : String) (rnd : Fin 900000) (code : Int)
    (huuid : isUUID cmID = true)
    (hex : ∃ cm ∈ db.user_contact_methods, cm.id = cmID)
    (hown : ∀ cm ∈ db.user_contact_methods, cm.id = cmID → cm.user_id = u) :
    (ctx.user = true → ctx.admin = false → ctx.userID ≠ u →
      DB.SendContactMethodTest isUUID db ctx now vID cmID =
        (Except.error Error.PermissionDenied, db) ∧
      DB.SendContactMethodVerification isUUID db ctx now vcID rnd cmID =
        (Except.error Error.PermissionDenied, db) ∧
      DB.VerifyContactMethod isUUID db ctx cmID code =
        (Except.error Error.PermissionDenied, db)) ∧
    ((ctx.admin = true ∨ (ctx.user = true ∧ ctx.userID = u)) →
      db.cmUserID isUUID ctx cmID = Except.ok u) := by
  refine ⟨?_, ?_⟩
  · intro huser hadmin hother
    have hden := cmUserID_denied isUUID db ctx cmID u huuid hex hown huser hadmin hother
    refine ⟨?_, ?_, ?_⟩
    · unfold DB.SendContactMethodTest; rw [hden]
    · unfold DB.SendContactMethodVerification; rw [hden]
    · unfold DB.VerifyContactMethod; rw [hden]
  · intro hcaller
    unfold DB.cmUserID
    rcases hcaller with hadmin | ⟨huser, hid⟩
    · simp [permission.LimitCheckAny, permission.User, permission.Admin,
        permission.MatchUser, validate.UUID, huuid, hadmin,
        getCMUserID_owner db cmID u hex hown]
    · simp [permission.LimitCheckAny, permission.User, permission.Admin,
        permission.MatchUser, validate.UUID, huuid, huser, hid,
        getCMUserID_owner db cmID u hex hown]

/-- C11 applied to the example store: the contact method of `userA` is closed to `userB` and
open to `userA` and to an admin. -/
theorem contact_method_ownership_witness :
    DB.SendContactMethodTest anyUUID enabledDB callerB 1000
        "a0000000-0000-4000-8000-000000000001" cmA =
      (Except.error Error.PermissionDenied, enabledDB) ∧
    DB.SendContactMethodVerification anyUUID enabledDB callerB 1000
        "c0000000-0000-4000-8000-000000000001" 0 cmA =
      (Except.error Error.PermissionDenied, enabledDB) ∧
    DB.VerifyContactMethod anyUUID enabledDB callerB cmA 123456 =
      (Except.error Error.PermissionDenied, enabledDB) ∧
    enabledDB.cmUserID anyUUID callerAdmin cmA = Except.ok userA :=
  ⟨((contact_method_ownership anyUUID enabledDB callerB cmA userA 1000
      "a0000000-0000-4000-8000-000000000001" "c0000000-0000-4000-8000-000000000001" 0
      123456 (by decide) (by decide) (by decide)).1 (by decide) (by decide) (by decide)).1,
   ((contact_method_ownership anyUUID enabledDB callerB cmA userA 1000
      "a0000000-0000-4000-8000-000000000001" "c0000000-0000-4000-8000-000000000001" 0
      123456 (by decide) (by decide) (by decide)).1 (by decide) (by decide) (by decide)).2.1,
   ((contact_method_ownership anyUUID enabledDB callerB cmA userA 1000
      "a0000000-0000-4000-8000-000000000001" "c0000000-0000-4000-8000-000000000001" 0
      123456 (by decide) (by decide) (by decide)).1 (by decide) (by decide) (by decide)).2.2,
   (contact_method_ownership anyUUID enabledDB callerAdmin cmA userA 1000
      "a0000000-0000-4000-8000-000000000001" "c0000000-0000-4000-8000-000000000001" 0
      123456 (by decide) (by decide) (by decide)).2 (Or.inl (by decide))⟩

/-! ## Timestamp window of Slack requests -/

theorem slack_ParseInt_distantTimestamp :
    slack.ParseInt distantTimestamp = some (1700000000 - 2 ^ 63) := by
  decide

theorem slack_abs_minInt64 : slack.abs (slack.wrapInt64 (2 ^ 63)) = -(2 ^ 63) := by
  decide

/-- The window check is sound away from the overflow: for a local time in [0, 2^63 - 300) and
a 64-bit timestamp other than now - 2^63, a difference of more than 300 seconds is caught. -/
theorem slack_window_check_rejects (now ts : Int) (hnow : 0 ≤ now)
    (hnow2 : now < 2 ^ 63 - 300) (hts : -(2 ^ 63) ≤ ts) (hts2 : ts < 2 ^ 63)
    (hne : ts ≠ now - 2 ^ 63) (hfar : now - ts < -300 ∨ 300 < now - ts) :
    slack.abs (slack.wrapInt64 (now - ts)) > 60 * 5 := by
  unfold slack.abs slack.wrapInt64
  norm_num at *
  split <;> omega

/-- C12 fails on the code: at local time 1700000000 the header -9223372035154775808 parses as
an int64 that lies 2^63 seconds from now, the difference wraps to the minimum int64, abs
returns that negative value unchanged, the comparison with 300 lets the request through, and a
request signed for that timestamp is accepted. -/
theorem slack_validRequest_accepts_distant_timestamp (hmacHex : String → String → String)
    (secret body : String) :
    slack.ParseInt distantTimestamp = some (1700000000 - 2 ^ 63) ∧
      300 < (1700000000 : Int) - (1700000000 - 2 ^ 63) ∧
      slack.abs (slack.wrapInt64 (1700000000 - (1700000000 - 2 ^ 63))) = -(2 ^ 63) ∧
      slack.validRequest hmacHex secret 1700000000 (distantRequest hmacHex secret body) =
        (true, none) := by
  refine ⟨slack_ParseInt_distantTimestamp, by decide, by decide, ?_⟩
  unfold slack.validRequest distantRequest
  simp only [slack_ParseInt_distantTimestamp]
  have habs : slack.abs (slack.wrapInt64 (1700000000 - (1700000000 - 2 ^ 63))) = -(2 ^ 63) := by
    decide
  simp only [habs]
  simp

end notification
